import Mathlib

/-!
Verification development for the bank-statement ingestion and reconciliation
engine (CBI parser, dedup/ingest controller, rule engine, reconciliation
matcher).  The Python sources are shallowly embedded: pure functions become
Lean functions, database rows become structures, SQL queries become list
filters, and Python exceptions are modelled with `Except` at the operations
that can raise (`float`, `strptime`, `bytes.decode`, division), with
`try/except` rendered as explicit handling of the error constructors.

Numeric model: Python floats are modelled by `Q`, an executable normalized
rational type (integer numerator, positive natural denominator, reduced via
gcd).  Dates in the reconciliation layer are modelled as integer day numbers
(`datetime.date` ordering and day arithmetic); dates inside the CBI parser,
where the textual DDMMYY form matters, are modelled by `PyDate`.
-/

/-! ## Executable rationals -/

/-- Executable rational number: numerator and (positive, by construction
through `qNorm`) denominator.  Models Python float arithmetic exactly on
decimal inputs. -/
structure Q where
  num : Int
  den : Nat
  deriving DecidableEq

/-- Normalization invariant maintained by all `Q` constructors. -/
def Q.wf (q : Q) : Prop := 0 < q.den

instance : DecidablePred Q.wf := fun q => inferInstanceAs (Decidable (0 < q.den))

/-- Build a reduced rational from an integer numerator and denominator. -/
def qNorm (n d : Int) : Q :=
  if d = 0 then ⟨0, 1⟩
  else
    let g : Nat := Int.gcd n d
    let nn : Int := if d < 0 then -n else n
    ⟨nn / (g : Int), d.natAbs / g⟩

def Q.ofInt (n : Int) : Q := ⟨n, 1⟩

instance (n : Nat) : OfNat Q n := ⟨⟨(n : Int), 1⟩⟩

def Q.add (a b : Q) : Q := qNorm (a.num * b.den + b.num * a.den) ((a.den : Int) * b.den)

def Q.sub (a b : Q) : Q := qNorm (a.num * b.den - b.num * a.den) ((a.den : Int) * b.den)

def Q.mul (a b : Q) : Q := qNorm (a.num * b.num) ((a.den : Int) * b.den)

/-- Division; total (returns 0 on zero divisor).  Call sites where Python
would raise `ZeroDivisionError` are modelled separately by `pyDiv`. -/
def Q.div (a b : Q) : Q := qNorm (a.num * b.den) ((a.den : Int) * b.num)

def Q.neg (a : Q) : Q := ⟨-a.num, a.den⟩

def Q.abs (a : Q) : Q := ⟨a.num.natAbs, a.den⟩

/-- Boolean `a ≤ b` by cross multiplication (valid on `Q.wf` values). -/
def Q.ble (a b : Q) : Bool := a.num * (b.den : Int) ≤ b.num * (a.den : Int)

/-- Boolean `a < b` by cross multiplication (valid on `Q.wf` values). -/
def Q.blt (a b : Q) : Bool := a.num * (b.den : Int) < b.num * (a.den : Int)

/-- Python `round(x, n)`: round to `n` decimal digits, ties to even. -/
def Q.roundTo (n : Nat) (q : Q) : Q :=
  let scale : Int := (10 : Int) ^ n
  let a : Int := q.num * scale
  let b : Int := (q.den : Int)
  let fl : Int := a.fdiv b
  let r : Int := a - b * fl
  let k : Int :=
    if 2 * r < b then fl
    else if 2 * r > b then fl + 1
    else if fl % 2 = 0 then fl else fl + 1
  qNorm k scale

theorem qNorm_wf (n d : Int) : (qNorm n d).wf := by
  unfold qNorm Q.wf
  split
  · decide
  · rename_i hd
    have hg : Int.gcd n d ∣ d.natAbs := Nat.gcd_dvd_right n.natAbs d.natAbs
    have hgpos : 0 < Int.gcd n d := by
      rcases Nat.eq_zero_or_pos (Int.gcd n d) with h0 | h
      · exact absurd (Int.natAbs_eq_zero.mp (Nat.eq_zero_of_gcd_eq_zero_right h0)) hd
      · exact h
    have hdpos : 0 < d.natAbs := Int.natAbs_pos.mpr hd
    exact Nat.div_pos (Nat.le_of_dvd hdpos hg) hgpos

theorem Q.abs_wf (a : Q) (h : a.wf) : (Q.abs a).wf := h

/-- Transitivity of the boolean order on well-formed rationals. -/
theorem Q.ble_trans {a b c : Q} (hb : b.wf)
    (h1 : a.ble b = true) (h2 : b.ble c = true) : a.ble c = true := by
  unfold Q.ble at *
  have h1' : a.num * (b.den : Int) ≤ b.num * (a.den : Int) := by exact_mod_cast of_decide_eq_true h1
  have h2' : b.num * (c.den : Int) ≤ c.num * (b.den : Int) := by exact_mod_cast of_decide_eq_true h2
  have hbden : (0 : Int) < (b.den : Int) := by exact_mod_cast hb
  have m1 : a.num * (b.den : Int) * (c.den : Int) ≤ b.num * (a.den : Int) * (c.den : Int) :=
    mul_le_mul_of_nonneg_right h1' (by positivity)
  have m2 : b.num * (c.den : Int) * (a.den : Int) ≤ c.num * (b.den : Int) * (a.den : Int) :=
    mul_le_mul_of_nonneg_right h2' (by positivity)
  have key : a.num * (c.den : Int) * (b.den : Int) ≤ c.num * (a.den : Int) * (b.den : Int) := by
    nlinarith [m1, m2]
  have := le_of_mul_le_mul_right (by linarith [key] : a.num * (c.den : Int) * (b.den : Int) ≤ c.num * (a.den : Int) * (b.den : Int)) hbden
  simp only [decide_eq_true_eq]
  exact_mod_cast this

/-! ## String helpers (Python semantics over `String.data`)

All operations are defined structurally over the character list so that
concrete instances evaluate inside the kernel. -/

/-- Python `str.upper()` (ASCII model). -/
def pyUpper (s : String) : String := ⟨s.data.map Char.toUpper⟩

/-- Python `str.lstrip(" ")`. -/
def pyLstripSpace (s : String) : String := ⟨s.data.dropWhile (· = ' ')⟩

/-- Python `str.strip()`. -/
def pyStrip (s : String) : String :=
  ⟨((s.data.dropWhile Char.isWhitespace).reverse.dropWhile Char.isWhitespace).reverse⟩

/-- Python slice `s[a:b]`. -/
def pySlice (s : String) (a b : Nat) : String := ⟨(s.data.drop a).take (b - a)⟩

/-- Python slice `s[a:]`. -/
def pySliceFrom (s : String) (a : Nat) : String := ⟨s.data.drop a⟩

/-- Python slice `s[:b]`. -/
def pySliceTo (s : String) (b : Nat) : String := ⟨s.data.take b⟩

/-- Python `len(s)`. -/
def pyLen (s : String) : Nat := s.data.length

def isSubListChar : List Char → List Char → Bool
  | needle, [] => needle.isEmpty
  | needle, c :: cs => needle.isPrefixOf (c :: cs) || isSubListChar needle cs

/-- Python `needle in hay` on strings. -/
def strIn (needle hay : String) : Bool := isSubListChar needle.data hay.data

/-- Index of the first occurrence of `needle`, Python `hay.find(needle)`
restricted to the found case. -/
def strFindAux (needle : List Char) : List Char → Nat → Option Nat
  | [], i => if needle.isEmpty then some i else none
  | c :: cs, i => if needle.isPrefixOf (c :: cs) then some i else strFindAux needle cs (i + 1)

def strFind (hay needle : String) : Option Nat := strFindAux needle.data hay.data 0

/-- Python `s.replace(old, "")` for a single-character `old`. -/
def pyRemoveChar (c : Char) (s : String) : String := ⟨s.data.filter (· ≠ c)⟩

/-- Python `s.replace(old, new)` for single characters. -/
def pyReplaceChar (old new : Char) (s : String) : String :=
  ⟨s.data.map (fun c => if c = old then new else c)⟩

/-- Python `str.splitlines()` boundary characters (besides CR LF pairs). -/
def isLineBreak (c : Char) : Bool :=
  c = Char.ofNat 10 || c = Char.ofNat 13 || c = Char.ofNat 11 || c = Char.ofNat 12 ||
  c = Char.ofNat 28 || c = Char.ofNat 29 || c = Char.ofNat 30 || c = Char.ofNat 133 ||
  c = Char.ofNat 8232 || c = Char.ofNat 8233

def splitLinesAux : List Char → List Char → List String
  | [], acc => if acc.isEmpty then [] else [⟨acc.reverse⟩]
  | c :: cs, acc =>
    if c = Char.ofNat 13 then
      match cs with
      | d :: ds =>
        if d = Char.ofNat 10 then (⟨acc.reverse⟩ : String) :: splitLinesAux ds []
        else (⟨acc.reverse⟩ : String) :: splitLinesAux (d :: ds) []
      | [] => [⟨acc.reverse⟩]
    else if isLineBreak c then (⟨acc.reverse⟩ : String) :: splitLinesAux cs []
    else splitLinesAux cs (c :: acc)

/-- Python `str.splitlines()`. -/
def pySplitLines (s : String) : List String := splitLinesAux s.data []

/-- Stable insertion of `x` into a sorted list: `x` goes before the first
element `y` with `le x y`, so that under `stableSortBy` (which inserts
earlier elements into the sorted later ones) equal elements keep their
original relative order. -/
def insertLe {α : Type} (le : α → α → Bool) (x : α) : List α → List α
  | [] => [x]
  | y :: ys => if le x y then x :: y :: ys else y :: insertLe le x ys

/-- Stable sort (models both SQL `ORDER BY` result order and Python
`list.sort`, which are stable). -/
def stableSortBy {α : Type} (le : α → α → Bool) : List α → List α
  | [] => []
  | x :: xs => insertLe le x (stableSortBy le xs)

theorem mem_insertLe {α : Type} (le : α → α → Bool) (x : α) (l : List α) (a : α) :
    a ∈ insertLe le x l ↔ a = x ∨ a ∈ l := by
  induction l with
  | nil => simp [insertLe]
  | cons y ys ih =>
    unfold insertLe
    split
    · simp
    · simp only [List.mem_cons, ih]
      tauto

theorem mem_stableSortBy {α : Type} (le : α → α → Bool) (l : List α) (a : α) :
    a ∈ stableSortBy le l ↔ a ∈ l := by
  induction l with
  | nil => simp [stableSortBy]
  | cons x xs ih =>
    unfold stableSortBy
    rw [mem_insertLe, ih]
    simp

theorem pairwise_insertLe {α : Type} (le : α → α → Bool)
    (htot : ∀ a b, le a b || le b a)
    (htrans : ∀ a b c, le a b = true → le b c = true → le a c = true)
    (x : α) (l : List α)
    (h : l.Pairwise (fun a b => le a b = true)) :
    (insertLe le x l).Pairwise (fun a b => le a b = true) := by
  induction l with
  | nil => simp [insertLe]
  | cons y ys ih =>
    unfold insertLe
    rcases List.pairwise_cons.mp h with ⟨hy, hys⟩
    split
    · rename_i hle
      refine List.pairwise_cons.mpr ⟨?_, h⟩
      intro b hb
      rcases List.mem_cons.mp hb with hbx | hby
      · subst hbx; exact hle
      · exact htrans x y b hle (hy b hby)
    · rename_i hnle
      have hyx : le y x = true := by
        rcases Bool.or_eq_true_iff.mp (htot x y) with h1 | h1
        · exact absurd h1 hnle
        · exact h1
      refine List.pairwise_cons.mpr ⟨?_, ih hys⟩
      intro b hb
      rcases (mem_insertLe le x ys b).mp hb with hbx | hby
      · subst hbx; exact hyx
      · exact hy b hby

theorem pairwise_stableSortBy {α : Type} (le : α → α → Bool)
    (htot : ∀ a b, le a b || le b a)
    (htrans : ∀ a b c, le a b = true → le b c = true → le a c = true)
    (l : List α) :
    (stableSortBy le l).Pairwise (fun a b => le a b = true) := by
  induction l with
  | nil => simp [stableSortBy]
  | cons x xs ih =>
    unfold stableSortBy
    exact pairwise_insertLe le htot htrans x _ ih

/-! ## Python exceptions and numeric parsing/formatting -/

/-- Python exception kinds relevant to the embedded code. -/
inductive PyErr where
  | valueError
  | indexError
  | unicodeDecodeError
  | zeroDivisionError
  deriving DecidableEq

def digitsToNat (ds : List Char) : Nat := ds.foldl (fun a c => a * 10 + (c.toNat - 48)) 0

/-- Python `float(s)` on the decimal/scientific literal fragment; raises
`ValueError` on anything else (the `inf`/`nan` spellings never occur in the
embedded call sites). -/
def pyFloat (s : String) : Except PyErr Q :=
  let cs := (pyStrip s).data
  let sgnCs : Int × List Char :=
    match cs with
    | c :: rest => if c = '-' then (-1, rest) else if c = '+' then (1, rest) else (1, cs)
    | [] => (1, cs)
  let sgn := sgnCs.1
  let cs1 := sgnCs.2
  let intPart := cs1.takeWhile Char.isDigit
  let rest1 := cs1.dropWhile Char.isDigit
  let fracRest : List Char × List Char :=
    match rest1 with
    | c :: r => if c = '.' then (r.takeWhile Char.isDigit, r.dropWhile Char.isDigit) else ([], rest1)
    | [] => ([], rest1)
  let fracPart := fracRest.1
  let rest2 := fracRest.2
  if intPart.isEmpty && fracPart.isEmpty then .error .valueError
  else
    let base : Int := sgn * (digitsToNat (intPart ++ fracPart) : Int)
    match rest2 with
    | [] => .ok (qNorm base ((10 : Int) ^ fracPart.length))
    | c :: r =>
      if c = 'e' || c = 'E' then
        let esgnR : Int × List Char :=
          match r with
          | d :: rr => if d = '-' then (-1, rr) else if d = '+' then (1, rr) else (1, r)
          | [] => (1, r)
        let eds := esgnR.2.takeWhile Char.isDigit
        let r2 := esgnR.2.dropWhile Char.isDigit
        if eds.isEmpty || !r2.isEmpty then .error .valueError
        else
          let e : Int := esgnR.1 * (digitsToNat eds : Int) - fracPart.length
          if 0 ≤ e then .ok (qNorm (base * (10 : Int) ^ e.toNat) 1)
          else .ok (qNorm base ((10 : Int) ^ (-e).toNat))
      else .error .valueError

/-- Python `a / b` on floats: raises `ZeroDivisionError` on a zero divisor. -/
def pyDiv (a b : Q) : Except PyErr Q :=
  if b = qNorm 0 1 || b = ⟨0, 1⟩ then .error .zeroDivisionError else .ok (Q.div a b)

def intRepr (n : Int) : String :=
  if n < 0 then "-" ++ Nat.repr n.natAbs else Nat.repr n.natAbs

def fracDigitsAux (d : Nat) : Nat → Nat → List Char
  | 0, _ => []
  | fuel + 1, r =>
    if r = 0 then []
    else
      let r10 := r * 10
      Char.ofNat (48 + r10 / d) :: fracDigitsAux d fuel (r10 % d)

/-- Python `str(x)` for a float value (decimal expansion; a trailing `.0` is
kept for integral values, as Python does). -/
def fmtFloat (q : Q) : String :=
  let sign : String := if q.num < 0 then "-" else ""
  let ip := q.num.natAbs / q.den
  let r := q.num.natAbs % q.den
  let frac := fracDigitsAux q.den 17 r
  sign ++ Nat.repr ip ++ "." ++ (if frac.isEmpty then "0" else ⟨frac⟩)

def padLeftZeros (w : Nat) (s : String) : String :=
  ⟨List.replicate (w - s.data.length) (Char.ofNat 48)⟩ ++ s

/-- Fixed-point rendering with exactly `d` decimals, ties to even
(Python `format(x, ".df")`). -/
def fmtFixed (d : Nat) (q : Q) : String :=
  let q2 := Q.roundTo d q
  let scale : Nat := 10 ^ d
  let n : Int := q2.num * ((scale / q2.den : Nat) : Int)
  let sign : String := if n < 0 then "-" else ""
  let a := n.natAbs
  if d = 0 then sign ++ Nat.repr a
  else sign ++ Nat.repr (a / scale) ++ "." ++ padLeftZeros d (Nat.repr (a % scale))

/-- Python percent formatting `f"{x:.d%}"`. -/
def fmtPct (d : Nat) (q : Q) : String := fmtFixed d (Q.mul q ⟨100, 1⟩) ++ "%"

/-! ## UTF-8 and SHA-256 (for the dedup hash) -/

def utf8EncodeChar (c : Char) : List Nat :=
  let n := c.toNat
  if n < 128 then [n]
  else if n < 2048 then [192 + n / 64, 128 + n % 64]
  else if n < 65536 then [224 + n / 4096, 128 + (n / 64) % 64, 128 + n % 64]
  else [240 + n / 262144, 128 + (n / 4096) % 64, 128 + (n / 64) % 64, 128 + n % 64]

/-- Python `str.encode()` (UTF-8 bytes). -/
def utf8Encode (s : String) : List Nat := (s.data.map utf8EncodeChar).flatten

def m32 (x : Nat) : Nat := x % 4294967296

def rotr32 (n x : Nat) : Nat := m32 ((x >>> n) ||| (x <<< (32 - n)))

def sha256K : List Nat :=
  [1116352408, 1899447441, 3049323471, 3921009573, 961987163, 1508970993,
   2453635748, 2870763221, 3624381080, 310598401, 607225278, 1426881987,
   1925078388, 2162078206, 2614888103, 3248222580, 3835390401, 4022224774,
   264347078, 604807628, 770255983, 1249150122, 1555081692, 1996064986,
   2554220882, 2821834349, 2952996808, 3210313671, 3336571891, 3584528711,
   113926993, 338241895, 666307205, 773529912, 1294757372, 1396182291,
   1695183700, 1986661051, 2177026350, 2456956037, 2730485921, 2820302411,
   3259730800, 3345764771, 3516065817, 3600352804, 4094571909, 275423344,
   430227734, 506948616, 659060556, 883997877, 958139571, 1322822218,
   1537002063, 1747873779, 1955562222, 2024104815, 2227730452, 2361852424,
   2428436474, 2756734187, 3204031479, 3329325298]

def sha256H0 : List Nat :=
  [1779033703, 3144134277, 1013904242, 2773480762, 1359893119, 2600822924,
   528734635, 1541459225]

def toWords32 : List Nat → List Nat
  | b1 :: b2 :: b3 :: b4 :: rest => (b1 * 16777216 + b2 * 65536 + b3 * 256 + b4) :: toWords32 rest
  | _ => []

def chunksOf64 : Nat → List Nat → List (List Nat)
  | 0, _ => []
  | _, [] => []
  | fuel + 1, bs => bs.take 64 :: chunksOf64 fuel (bs.drop 64)

def sha256Sched (w0 : List Nat) : List Nat :=
  (List.range 48).foldl
    (fun w i =>
      let w1 := w.getD (i + 1) 0
      let w14 := w.getD (i + 14) 0
      let s0 := (rotr32 7 w1) ^^^ (rotr32 18 w1) ^^^ (w1 >>> 3)
      let s1 := (rotr32 17 w14) ^^^ (rotr32 19 w14) ^^^ (w14 >>> 10)
      w ++ [m32 (w.getD i 0 + s0 + w.getD (i + 9) 0 + s1)])
    w0

def sha256Compress (h : List Nat) (block : List Nat) : List Nat :=
  let w := sha256Sched (toWords32 block)
  let st :=
    (List.range 64).foldl
      (fun (st : List Nat) i =>
        let a := st.getD 0 0
        let b := st.getD 1 0
        let c := st.getD 2 0
        let d := st.getD 3 0
        let e := st.getD 4 0
        let f := st.getD 5 0
        let g := st.getD 6 0
        let hh := st.getD 7 0
        let s1 := (rotr32 6 e) ^^^ (rotr32 11 e) ^^^ (rotr32 25 e)
        let ch := (e &&& f) ^^^ ((4294967295 - e) &&& g)
        let t1 := m32 (hh + s1 + ch + sha256K.getD i 0 + w.getD i 0)
        let s0 := (rotr32 2 a) ^^^ (rotr32 13 a) ^^^ (rotr32 22 a)
        let maj := (a &&& b) ^^^ (a &&& c) ^^^ (b &&& c)
        let t2 := m32 (s0 + maj)
        [m32 (t1 + t2), a, b, c, m32 (d + t1), e, f, g])
      h
  (List.range 8).map (fun i => m32 (h.getD i 0 + st.getD i 0))

def sha256Pad (msg : List Nat) : List Nat :=
  let l := msg.length
  let zeros := (119 - l % 64) % 64
  let bitLen := 8 * l
  msg ++ [128] ++ List.replicate zeros 0 ++
    (List.range 8).map (fun i => (bitLen >>> (8 * (7 - i))) % 256)

def hexDigitChar (n : Nat) : Char := Char.ofNat (if n < 10 then 48 + n else 87 + n)

def wordHex (x : Nat) : List Char := (List.range 8).map (fun i => hexDigitChar ((x >>> (4 * (7 - i))) % 16))

/-- `hashlib.sha256(bytes).hexdigest()`. -/
def sha256Hexdigest (msg : List Nat) : String :=
  let padded := sha256Pad msg
  let digest := (chunksOf64 (padded.length + 1) padded).foldl sha256Compress sha256H0
  ⟨(digest.map wordHex).flatten⟩

/-! ## CBI statement parser (`app/services/cbi_parser.py`) -/

/-- A `datetime.date` value. -/
structure PyDate where
  year : Nat
  month : Nat
  day : Nat
  deriving DecidableEq

def isLeapYear (y : Nat) : Bool := (y % 4 = 0 && y % 100 ≠ 0) || y % 400 = 0

def daysInMonth (y m : Nat) : Nat :=
  if m = 2 then (if isLeapYear y then 29 else 28)
  else if m = 4 || m = 6 || m = 9 || m = 11 then 30
  else 31

/-- Python `str(date)`: ISO `YYYY-MM-DD`. -/
def pyDateIso (d : PyDate) : String :=
  padLeftZeros 4 (Nat.repr d.year) ++ "-" ++ padLeftZeros 2 (Nat.repr d.month) ++ "-" ++
    padLeftZeros 2 (Nat.repr d.day)

/-- Python `datetime.strptime(s, "%d%m%y").date()`: raises `ValueError` on a
malformed or impossible date; two-digit years 00-68 map to 2000-2068 and
69-99 to 1969-1999. -/
def strptimeDDMMYY (s : String) : Except PyErr PyDate :=
  let cs := s.data
  if cs.length ≠ 6 || !cs.all Char.isDigit then .error .valueError
  else
    let dd := digitsToNat (cs.take 2)
    let mm := digitsToNat ((cs.drop 2).take 2)
    let yy := digitsToNat (cs.drop 4)
    let year := if yy ≤ 68 then 2000 + yy else 1900 + yy
    if 1 ≤ mm && mm ≤ 12 && 1 ≤ dd && dd ≤ daysInMonth year mm then .ok ⟨year, mm, dd⟩
    else .error .valueError

/-- `_parse_cbi_date`: DDMMYY, returning `none` instead of raising. -/
def parseCbiDate (s : String) : Except PyErr (Option PyDate) :=
  if s.data.isEmpty || pyLen s < 6 then .ok none
  else
    let t := pyStrip (pySliceTo s 6)
    if pyLen t ≠ 6 || !(t.data.all Char.isDigit) then .ok none
    else
      match strptimeDDMMYY t with
      | .ok d => .ok (some d)
      | .error .valueError => .ok none
      | .error e => .error e

/-- `_parse_italian_amount`: strip thousands dots, comma to decimal point,
absolute value; 0.0 on empty input or float parse failure. -/
def parseItalianAmount (text : String) : Except PyErr Q :=
  if text.data.isEmpty then .ok ⟨0, 1⟩
  else
    let cleaned := pyStrip (pyReplaceChar ',' '.' (pyRemoveChar '.' text))
    match pyFloat cleaned with
    | .ok v => .ok (Q.abs v)
    | .error .valueError => .ok ⟨0, 1⟩
    | .error e => .error e

/-- `_get_causale_abi_description`. -/
def getCausaleAbiDescription (code : String) : String :=
  if code = "480" then "Bonifico ricevuto"
  else if code = "260" then "Disposizione di pagamento"
  else if code = "110" then "Utenze"
  else if code = "780" then "Versamento contanti"
  else if code = "198" then "Agenzia delle Entrate"
  else if code = "50C" then "SDD addebito diretto"
  else if code = "050" then "Assegno"
  else if code = "270" then "Stipendi"
  else if code = "450" then "Effetti"
  else if code = "010" then "Versamento"
  else if code = "090" then "Prelevamento"
  else if code = "120" then "Pagamento POS"
  else if code = "540" then "Carte di credito"
  else if code = "680" then "Commissioni"
  else if code = "430" then "Interessi"
  else if code = "16G" then "Commissioni"
  else if code = "16K" then "Emissione/attivazione carta"
  else if code = "48" then "Bonifico ricevuto"
  else if code = "26" then "Disposizione di pagamento"
  else if code = "11" then "Utenze"
  else if code = "78" then "Versamento contanti"
  else ""

/-! ### Hand-compiled scanners for the fixed regular expressions of
`_extract_counterpart_from_text` and `_build_transaction`.  Each scanner
implements one concrete pattern from the source (noted in its doc comment),
with the same greedy/lazy semantics on the inputs that occur. -/

def wsCount (cs : List Char) : Nat := (cs.takeWhile Char.isWhitespace).length

def startsWithStr (lit : String) (cs : List Char) : Bool := lit.data.isPrefixOf cs

/-- Lazy group `(.+?)` followed by a terminator: the shortest nonempty prefix
whose remaining suffix satisfies `term`. -/
def lazyCap (term : List Char → Bool) : List Char → Option (List Char)
  | [] => none
  | c :: cs => if term cs then some [c] else (lazyCap term cs).map (c :: ·)

/-- `re.search`: try the matcher at every start position, leftmost first. -/
def searchAux {α : Type} (m : List Char → Option α) : List Char → Option α
  | [] => m []
  | c :: cs =>
    match m (c :: cs) with
    | some v => some v
    | none => searchAux m cs

def expectDigits : Nat → List Char → Option (List Char)
  | 0, cs => some cs
  | n + 1, c :: cs => if c.isDigit then expectDigits n cs else none
  | _ + 1, [] => none

def expectChar (ch : Char) : List Char → Option (List Char)
  | c :: cs => if c = ch then some cs else none
  | [] => none

/-- Terminator of pattern 1: `(?:\s{2,}|\s*-\s*ADD|\s*$)`. -/
def favTerm (cs : List Char) : Bool :=
  wsCount cs ≥ 2 ||
  (match cs.dropWhile Char.isWhitespace with
   | c :: r2 => c = '-' && startsWithStr "ADD" (r2.dropWhile Char.isWhitespace)
   | [] => false) ||
  cs.all Char.isWhitespace

/-- Pattern 1 at one position: `FAVORE\s{2,}(.+?)(?:\s{2,}|\s*-\s*ADD|\s*$)`. -/
def favMatchAt (cs : List Char) : Option (List Char) :=
  if startsWithStr "FAVORE" cs then
    let r := cs.drop 6
    if wsCount r ≥ 2 then lazyCap favTerm (r.dropWhile Char.isWhitespace)
    else none
  else none

/-- `re.sub(r"\s*NOTPROVIDE.*$", "", name)` followed by `.strip()`. -/
def removeNotProvide (name : String) : String :=
  match strFind name "NOTPROVIDE" with
  | some i => pyStrip (pySliceTo name i)
  | none => name

/-- Pattern 2a: `SDD\s+(?:CORE|B2B)\s*:\s*\S+\s{2,}(.+)` (anchored). -/
def sddCoreMatch (cs : List Char) : Option String :=
  if startsWithStr "SDD" cs then
    let r1 := cs.drop 3
    if wsCount r1 ≥ 1 then
      let r2 := r1.dropWhile Char.isWhitespace
      let r3opt : Option (List Char) :=
        if startsWithStr "CORE" r2 then some (r2.drop 4)
        else if startsWithStr "B2B" r2 then some (r2.drop 3)
        else none
      match r3opt with
      | none => none
      | some r3 =>
        match expectChar ':' (r3.dropWhile Char.isWhitespace) with
        | none => none
        | some r5 =>
          let r6 := r5.dropWhile Char.isWhitespace
          let tok := r6.takeWhile (fun c => !c.isWhitespace)
          if tok.isEmpty then none
          else
            let r7 := r6.dropWhile (fun c => !c.isWhitespace)
            if wsCount r7 ≥ 2 && r7.length ≥ 3 then
              some (pyStrip ⟨r7.drop (min (wsCount r7) (r7.length - 1))⟩)
            else none
    else none
  else none

/-- Character class `[A-Z\s'.&]` of pattern 2b. -/
def isNameClassChar (c : Char) : Bool :=
  (Char.ofNat 65 ≤ c && c ≤ Char.ofNat 90) || c.isWhitespace || c = Char.ofNat 39 ||
  c = '.' || c = '&'

/-- Trailing-name search of pattern 2b:
`([A-Z][A-Z\s'.&]+(?:SRL|SPA|SOC|COOP|S\.R\.L\.|S\.P\.A\.)?)$` (the optional
suffix alternatives are all inside the class, so the pattern is the leftmost
suffix `[A-Z][A-Z\s'.&]+$`). -/
def upperTailSearch : List Char → Option (List Char)
  | [] => none
  | c :: cs =>
    if (Char.ofNat 65 ≤ c && c ≤ Char.ofNat 90) && !cs.isEmpty && cs.all isNameClassChar then
      some (c :: cs)
    else upperTailSearch cs

/-- Pattern 2b: `SDD\s+B2B\s*:\s*\S+(.{20,})` (anchored), with the `\S+`
backtracking that gives the capture at least 20 characters. -/
def sddB2bMatch (cs : List Char) : Option String :=
  if startsWithStr "SDD" cs then
    let r1 := cs.drop 3
    if wsCount r1 ≥ 1 then
      let r2 := r1.dropWhile Char.isWhitespace
      if startsWithStr "B2B" r2 then
        match expectChar ':' ((r2.drop 3).dropWhile Char.isWhitespace) with
        | none => none
        | some r5 =>
          let r6 := r5.dropWhile Char.isWhitespace
          let tok := r6.takeWhile (fun c => !c.isWhitespace)
          if tok.isEmpty then none
          else
            let rest := r6.drop tok.length
            let total := tok.length + rest.length
            if total ≥ 21 then
              let keep := min tok.length (total - 20)
              some (pyStrip ⟨r6.drop keep⟩)
            else none
      else none
    else none
  else none

/-- Terminator of pattern 3 (BOLL.CBILL): `(?:\s{3,}|\s+CBILL\s)`. -/
def bollTerm (cs : List Char) : Bool :=
  wsCount cs ≥ 3 ||
  (wsCount cs ≥ 1 &&
    (let r := cs.dropWhile Char.isWhitespace
     startsWithStr "CBILL" r &&
       (match r.drop 5 with
        | c :: _ => c.isWhitespace
        | [] => false)))

/-- Pattern 3: `BOLL\.CBILL\s+(.+?)(?:\s{3,}|\s+CBILL\s)` (anchored). -/
def bollMatch (cs : List Char) : Option String :=
  if startsWithStr "BOLL.CBILL" cs then
    let r := cs.drop 10
    if wsCount r ≥ 1 then (lazyCap bollTerm (r.dropWhile Char.isWhitespace)).map (fun g => pyStrip ⟨g⟩)
    else none
  else none

/-- Terminator `(?:\s{3,}|\s+Rif\.)` of the Bollettino/Utenze patterns. -/
def rifTerm (cs : List Char) : Bool :=
  wsCount cs ≥ 3 ||
  (wsCount cs ≥ 1 && startsWithStr "Rif." (cs.dropWhile Char.isWhitespace))

/-- Patterns `Bollettino\s+(.+?)(?:\s{3,}|\s+Rif\.)` and
`Utenze\s+(.+?)(?:\s{3,}|\s+Rif\.)` (anchored), parameterized on the
leading literal. -/
def litRifMatch (lit : String) (cs : List Char) : Option String :=
  if startsWithStr lit cs then
    let r := cs.drop lit.data.length
    if wsCount r ≥ 1 then (lazyCap rifTerm (r.dropWhile Char.isWhitespace)).map (fun g => pyStrip ⟨g⟩)
    else none
  else none

/-- Terminator of pattern 4 (carta): `(?:\s+[A-Z]{3}\s*$|\s*$)`. -/
def cartaTerm (cs : List Char) : Bool :=
  (wsCount cs ≥ 1 &&
   (let r := cs.dropWhile Char.isWhitespace
    r.length ≥ 3 && (r.take 3).all (fun c => Char.ofNat 65 ≤ c && c ≤ Char.ofNat 90) &&
      (r.drop 3).all Char.isWhitespace)) ||
  cs.all Char.isWhitespace

/-- Pattern 4: `CARTA\*\d{4}-\d{2}:\d{2}-(.+?)(?:\s+[A-Z]{3}\s*$|\s*$)`
(anchored). -/
def cartaMatch (cs : List Char) : Option String :=
  if startsWithStr "CARTA*" cs then
    match expectDigits 4 (cs.drop 6) with
    | none => none
    | some r1 =>
      match expectChar '-' r1 with
      | none => none
      | some r2 =>
        match expectDigits 2 r2 with
        | none => none
        | some r3 =>
          match expectChar ':' r3 with
          | none => none
          | some r4 =>
            match expectDigits 2 r4 with
            | none => none
            | some r5 =>
              match expectChar '-' r5 with
              | none => none
              | some r6 => (lazyCap cartaTerm r6).map (fun g => pyStrip ⟨g⟩)
  else none

def isWordChar (c : Char) : Bool := c.isAlphanum || c = Char.ofNat 95

/-- Terminator of pattern 5: `(?:\s+Via\b|\s*$)`. -/
def effTerm (cs : List Char) : Bool :=
  (wsCount cs ≥ 1 &&
   (let r := cs.dropWhile Char.isWhitespace
    startsWithStr "Via" r &&
      (match r.drop 3 with
       | c :: _ => !isWordChar c
       | [] => true))) ||
  cs.all Char.isWhitespace

/-- Pattern 5: `ADD\.EFFETTO\s*-\s*(.+?)(?:\s+Via\b|\s*$)` (anchored). -/
def effettoMatch (cs : List Char) : Option String :=
  if startsWithStr "ADD.EFFETTO" cs then
    match expectChar '-' ((cs.drop 11).dropWhile Char.isWhitespace) with
    | none => none
    | some r2 => (lazyCap effTerm (r2.dropWhile Char.isWhitespace)).map (fun g => pyStrip ⟨g⟩)
  else none

/-- Pattern 6: `[Cc]omm\.sdd:\s*\S+\s{2,}(.+)` (anchored); only the success
of the match matters (the function then returns the empty string). -/
def commSddMatch (cs : List Char) : Bool :=
  match cs with
  | c :: r =>
    (c = 'C' || c = 'c') && startsWithStr "omm.sdd:" r &&
    (let r2 := (r.drop 8).dropWhile Char.isWhitespace
     let tok := r2.takeWhile (fun ch => !ch.isWhitespace)
     let r3 := r2.dropWhile (fun ch => !ch.isWhitespace)
     !tok.isEmpty && wsCount r3 ≥ 2 && r3.length ≥ 3)
  | [] => false

/-- `_extract_counterpart_from_text`: ordered pattern attempts, first match
wins, empty string when nothing applies. -/
def extractCounterpartFromText (text : String) : String :=
  if text.data.isEmpty then ""
  else
    let p1 : Option String :=
      match searchAux favMatchAt text.data with
      | some g =>
        let name := removeNotProvide (pyStrip ⟨g⟩)
        if name.data.isEmpty then none else some name
      | none => none
    match p1 with
    | some n => n
    | none =>
      match sddCoreMatch text.data with
      | some n => n
      | none =>
        let p2b : Option String :=
          match sddB2bMatch text.data with
          | some tail =>
            match upperTailSearch (pyStrip tail).data with
            | some g => some (pyStrip ⟨g⟩)
            | none => none
          | none => none
        match p2b with
        | some n => n
        | none =>
          match bollMatch text.data with
          | some n => n
          | none =>
            match litRifMatch "Bollettino" text.data with
            | some n => n
            | none =>
              match litRifMatch "Utenze" text.data with
              | some n => n
              | none =>
                match cartaMatch text.data with
                | some n => n
                | none =>
                  match effettoMatch text.data with
                  | some n => n
                  | none => if commSddMatch text.data then "" else ""

/-- `(\d{5})/(\d{5})` at one position (for the COD tag). -/
def codMatchAt (cs : List Char) : Option (List Char × List Char) :=
  let g1 := cs.take 5
  if g1.length = 5 && g1.all Char.isDigit then
    match cs.drop 5 with
    | c :: r =>
      if c = '/' then
        let g2 := r.take 5
        if g2.length = 5 && g2.all Char.isDigit then some (g1, g2) else none
      else none
    | [] => none
  else none

/-- `re.search(r"(\d{5})/(\d{5})", s)`. -/
def codSearch (s : String) : Option (String × String) :=
  (searchAux codMatchAt s.data).map (fun p => (⟨p.1⟩, ⟨p.2⟩))

/-- `re.split(r"\s{3,}", s, maxsplit=1)`: part before the first run of three
or more whitespace characters, and (if the run exists) the part after it. -/
def split3Aux : List Char → List Char → List Char × Option (List Char)
  | [], acc => (acc.reverse, none)
  | c :: cs, acc =>
    if wsCount (c :: cs) ≥ 3 then (acc.reverse, some ((c :: cs).dropWhile Char.isWhitespace))
    else split3Aux cs (c :: acc)

/-- Terminator of the `62`-description fallback pattern: `(?:\s{2,}|$)`. -/
def descTerm (cs : List Char) : Bool := wsCount cs ≥ 2 || cs.isEmpty

/-- Fallback pattern `[A-Z0-9]+\s{2,}(.+?)(?:\s{2,}|$)` (anchored) applied to
the `62` record description. -/
def descFallbackMatch (cs : List Char) : Option String :=
  let run := cs.takeWhile (fun c => (Char.ofNat 65 ≤ c && c ≤ Char.ofNat 90) || c.isDigit)
  if run.isEmpty then none
  else
    let r := cs.drop run.length
    if wsCount r ≥ 2 then (lazyCap descTerm (r.dropWhile Char.isWhitespace)).map (fun g => pyStrip ⟨g⟩)
    else none

/-- Accumulator for the `63` continuation records of one movement. -/
structure Tx63State where
  counterpart_name : String
  counterpart_address : String
  ordinante_abi_cab : String
  remittance_parts : List String
  extra_parts : List String
  reference_code : String
  deriving DecidableEq

/-- Shared body of the `VS.` / `SDD` / `BOL` / `CAR` heuristic tags: extract a
counterpart name from the free text, keep the first one found, remember the
text.  (The four `elif` branches of the source are verbatim identical.) -/
def heurTag (st : Tx63State) (line63 : String) : Tx63State :=
  let fullText := pyStrip (pySliceFrom line63 12)
  let name := extractCounterpartFromText fullText
  let st2 :=
    if !name.data.isEmpty && st.counterpart_name.data.isEmpty then
      { st with counterpart_name := name }
    else st
  { st2 with extra_parts := st2.extra_parts ++ [pySliceTo fullText 80] }

/-- One iteration of the `for line_63 in lines_63` loop of
`_build_transaction`. -/
def process63Line (st : Tx63State) (line63 : String) : Tx63State :=
  if pyLen line63 < 15 then
    let text := if pyLen line63 > 12 then pyStrip (pySliceFrom line63 12) else ""
    if !text.data.isEmpty then { st with extra_parts := st.extra_parts ++ [text] } else st
  else
    let tag := pySlice line63 12 15
    let content := pyStrip (pySliceFrom line63 15)
    if tag = "YYY" then
      let textAfterTag := pySliceFrom line63 15
      let remaining :=
        if pyLen textAfterTag > 10 then pyStrip (pySliceFrom textAfterTag 10)
        else pyStrip textAfterTag
      if remaining.data.any (fun c => !c.isWhitespace) then
        let fullText := pyStrip remaining
        if st.counterpart_name.data.isEmpty then
          let sp := split3Aux fullText.data []
          match sp.2 with
          | some addr =>
            { st with counterpart_name := pyStrip ⟨sp.1⟩, counterpart_address := pyStrip ⟨addr⟩ }
          | none => { st with counterpart_name := pyStrip ⟨sp.1⟩ }
        else { st with counterpart_address := st.counterpart_address ++ " " ++ fullText }
      else st
    else if tag = "ID1" then
      let ref := pyStrip content
      if !ref.data.isEmpty && ref ≠ "NOTPROVIDED" && ref ≠ "NOT PROVIDED" then
        { st with reference_code := pySliceTo ref 50 }
      else st
    else if tag = "RI1" || tag = "RI2" then
      if !content.data.isEmpty then { st with remittance_parts := st.remittance_parts ++ [content] }
      else st
    else if tag = "COD" then
      let fullText := pyStrip (pySliceFrom line63 12)
      match codSearch fullText with
      | some p => { st with ordinante_abi_cab := p.1 ++ "/" ++ p.2 }
      | none => st
    else if tag = "VS." then heurTag st line63
    else if tag = "SDD" then heurTag st line63
    else if tag = "BOL" then heurTag st line63
    else if tag = "CAR" then heurTag st line63
    else
      let fullLineText := pyStrip (pySliceFrom line63 12)
      if fullLineText.data.isEmpty then st
      else if strIn "RI1" fullLineText then
        match strFind fullLineText "RI1" with
        | some idx =>
          { st with remittance_parts :=
              st.remittance_parts ++ [pyStrip (pySliceFrom fullLineText (idx + 3))] }
        | none => st
      else if strIn "ID1" fullLineText then
        match strFind fullLineText "ID1" with
        | some idx =>
          let ref := pyStrip (pySliceFrom fullLineText (idx + 3))
          if !ref.data.isEmpty && ref ≠ "NOTPROVIDED" && ref ≠ "NOT PROVIDED" then
            { st with reference_code := pySliceTo ref 50 }
          else st
        | none => st
      else if startsWithStr "CODICE ABI" fullLineText.data then st
      else
        let name := extractCounterpartFromText fullLineText
        let st2 :=
          if !name.data.isEmpty && st.counterpart_name.data.isEmpty then
            { st with counterpart_name := name }
          else st
        { st2 with extra_parts := st2.extra_parts ++ [pySliceTo fullLineText 80] }

/-- `sep.join(parts)`. -/
def joinSep (sep : String) : List String → String
  | [] => ""
  | [s] => s
  | s :: r :: rest => s ++ sep ++ joinSep sep (r :: rest)

/-- A balance snapshot extracted from a `61`/`64` record. -/
structure CbiBalance where
  date : PyDate
  balance : Q
  type : String
  deriving DecidableEq

/-- Body of `_parse_balance_record` (inside its `try`). -/
def parseBalanceBody (line : String) (balanceType : String) (headerDate : Option PyDate) :
    Except PyErr (Option CbiBalance) := do
  let recordType := pySliceTo line 2
  let fields : Option (String × String × String) :=
    if recordType = "64" then
      some (pySlice line 12 18, pySlice line 18 19, pyStrip (pySlice line 19 34))
    else if recordType = "61" then
      match strFind line "EUR" with
      | some eurIdx =>
        if pyLen line < eurIdx + 25 then none
        else
          some (pySlice line (eurIdx + 3) (eurIdx + 9), pySlice line (eurIdx + 9) (eurIdx + 10),
            pyStrip (pySlice line (eurIdx + 10) (eurIdx + 25)))
      | none => none
    else none
  match fields with
  | none => pure none
  | some (dateStr, sign, amountRaw) =>
    let d ← parseCbiDate dateStr
    let balDate : Option PyDate :=
      match d with
      | some x => some x
      | none => headerDate
    match balDate with
    | none => pure none
    | some bd =>
      let amount0 ← parseItalianAmount amountRaw
      let amount := if sign = "D" then Q.neg amount0 else amount0
      pure (some ⟨bd, Q.roundTo 2 amount, balanceType⟩)

/-- `_parse_balance_record`: short lines yield `None`; `ValueError` and
`IndexError` from the body are caught and yield `None`. -/
def parseBalanceRecordE (line : String) (balanceType : String) (headerDate : Option PyDate) :
    Except PyErr (Option CbiBalance) :=
  if pyLen line < 34 then .ok none
  else
    match parseBalanceBody line balanceType headerDate with
    | .ok v => .ok v
    | .error .valueError => .ok none
    | .error .indexError => .ok none
    | .error e => .error e

/-- The parsed-movement dictionary produced by `_build_transaction`. -/
structure CbiTx where
  operation_date : PyDate
  value_date : Option PyDate
  amount : Q
  direction : String
  causale_abi : String
  causale_description : String
  counterpart_name : String
  counterpart_address : String
  ordinante_abi_cab : String
  remittance_info : String
  reference_code : String
  description : String
  raw_data : String
  dedup_hash : String
  deriving DecidableEq

/-- The dedup string
`f"{operation_date}|{amount}|{reference_code}|{causale_abi}|{counterpart_name}"`,
where `amount` is the parsed (pre-rounding) magnitude. -/
def dedupStr (operationDate : PyDate) (amount : Q)
    (referenceCode causaleAbi counterpartName : String) : String :=
  pyDateIso operationDate ++ "|" ++ fmtFloat amount ++ "|" ++ referenceCode ++ "|" ++
    causaleAbi ++ "|" ++ counterpartName

/-- `hashlib.sha256(dedup_str.encode()).hexdigest()[:16]`: a function of
exactly the five dedup inputs. -/
def dedupHash (operationDate : PyDate) (amount : Q)
    (referenceCode causaleAbi counterpartName : String) : String :=
  pySliceTo (sha256Hexdigest (utf8Encode
    (dedupStr operationDate amount referenceCode causaleAbi counterpartName))) 16

/-- The result dictionary of `_build_transaction` (its final `return`),
assembled from the extracted values; `amount` is stored rounded to two
decimals while the dedup hash uses the raw parsed magnitude. -/
def mkCbiTx (operationDate : PyDate) (valueDate : Option PyDate) (amount : Q)
    (direction causaleAbi counterpartName counterpartAddress ordinanteAbiCab
     remittanceInfo referenceCode fullDescription rawData : String) : CbiTx :=
  { operation_date := operationDate
    value_date := valueDate
    amount := Q.roundTo 2 amount
    direction := direction
    causale_abi := causaleAbi
    causale_description := getCausaleAbiDescription causaleAbi
    counterpart_name := counterpartName
    counterpart_address := counterpartAddress
    ordinante_abi_cab := ordinanteAbiCab
    remittance_info := remittanceInfo
    reference_code := referenceCode
    description := fullDescription
    raw_data := rawData
    dedup_hash := dedupHash operationDate amount referenceCode causaleAbi counterpartName }

/-- Body of `_build_transaction` (inside its `try`). -/
def buildTransactionBody (line62 : String) (lines63 : List String)
    (headerDate : Option PyDate) : Except PyErr (Option CbiTx) := do
  let opd ← parseCbiDate (pySlice line62 12 18)
  let vd ← parseCbiDate (pySlice line62 18 24)
  let operationDate : Option PyDate :=
    match opd with
    | some d => some d
    | none => headerDate
  match operationDate with
  | none => pure none
  | some opDate =>
    let direction := pySlice line62 24 25
    if direction ≠ "C" && direction ≠ "D" then pure none
    else
      let amount ← parseItalianAmount (pyStrip (pySlice line62 25 40))
      if amount = ⟨0, 1⟩ then pure none
      else
        let causaleAbi := pyStrip (pySlice line62 40 43)
        let referenceCode0 := if pyLen line62 > 43 then pyStrip (pySlice line62 43 60) else ""
        let description := if pyLen line62 > 60 then pyStrip (pySliceFrom line62 60) else ""
        let st0 : Tx63State :=
          { counterpart_name := "", counterpart_address := "", ordinante_abi_cab := ""
            remittance_parts := [], extra_parts := [], reference_code := referenceCode0 }
        let st := lines63.foldl process63Line st0
        let counterpartName :=
          if st.counterpart_name.data.isEmpty && !description.data.isEmpty then
            match descFallbackMatch description.data with
            | some candidate =>
              if !candidate.data.isEmpty && candidate ≠ "COMMISSIONI" && candidate ≠ "COMPETENZE"
              then candidate
              else st.counterpart_name
            | none => st.counterpart_name
          else st.counterpart_name
        let fullDescription :=
          pyStrip (if st.extra_parts.isEmpty then description
            else description ++ " " ++ joinSep " " st.extra_parts)
        let remittanceInfo := pyStrip (joinSep " " st.remittance_parts)
        let rawData := joinSep "\n" (line62 :: lines63)
        pure (some (mkCbiTx opDate vd amount direction causaleAbi counterpartName
          st.counterpart_address st.ordinante_abi_cab remittanceInfo st.reference_code
          fullDescription rawData))

/-- `_build_transaction`: `None` for short/empty `62` lines, `ValueError` and
`IndexError` caught into `None`. -/
def buildTransactionE (line62 : String) (lines63 : List String)
    (headerDate : Option PyDate) : Except PyErr (Option CbiTx) :=
  if line62.data.isEmpty || pyLen line62 < 43 then .ok none
  else
    match buildTransactionBody line62 lines63 headerDate with
    | .ok v => .ok v
    | .error .valueError => .ok none
    | .error .indexError => .ok none
    | .error e => .error e

/-! ### Byte decoding chain of `parse_cbi_file` -/

/-- Strict UTF-8 decoding of a byte list; `none` (the failure that
`bytes.decode` surfaces as `UnicodeDecodeError`) on any invalid sequence. -/
def utf8DecodeAux : List Nat → Option (List Char)
  | [] => some []
  | b :: bs =>
    if b < 128 then (utf8DecodeAux bs).map (Char.ofNat b :: ·)
    else if 194 ≤ b && b ≤ 223 then
      match bs with
      | b2 :: rest =>
        if 128 ≤ b2 && b2 ≤ 191 then
          (utf8DecodeAux rest).map (Char.ofNat ((b - 194 + 2) * 64 + (b2 - 128)) :: ·)
        else none
      | [] => none
    else if 224 ≤ b && b ≤ 239 then
      match bs with
      | b2 :: b3 :: rest =>
        if 128 ≤ b2 && b2 ≤ 191 && 128 ≤ b3 && b3 ≤ 191 then
          let cp := (b - 224) * 4096 + (b2 - 128) * 64 + (b3 - 128)
          if cp < 2048 || (55296 ≤ cp && cp ≤ 57343) then none
          else (utf8DecodeAux rest).map (Char.ofNat cp :: ·)
        else none
      | _ => none
    else if 240 ≤ b && b ≤ 244 then
      match bs with
      | b2 :: b3 :: b4 :: rest =>
        if 128 ≤ b2 && b2 ≤ 191 && 128 ≤ b3 && b3 ≤ 191 && 128 ≤ b4 && b4 ≤ 191 then
          let cp := (b - 240) * 262144 + (b2 - 128) * 4096 + (b3 - 128) * 64 + (b4 - 128)
          if cp < 65536 || cp > 1114111 then none
          else (utf8DecodeAux rest).map (Char.ofNat cp :: ·)
        else none
      | _ => none
    else none

/-- `content.decode("utf-8")`: raises `UnicodeDecodeError` exactly when the
byte string is not valid UTF-8. -/
def utf8DecodeE (bs : List Nat) : Except PyErr String :=
  match utf8DecodeAux bs with
  | some cs => .ok (List.asString cs)
  | none => .error .unicodeDecodeError

/-- Latin-1 decoding: every byte maps to the character of the same code
point, so this decoding never fails. -/
def latin1Decode (bs : List Nat) : String := ⟨bs.map Char.ofNat⟩

/-- The cp1252 mapping of bytes 0x80-0x9F (`none` for the five unassigned
bytes, which make the decoding raise). -/
def cp1252High (b : Nat) : Option Nat :=
  if b = 128 then some 8364 else if b = 130 then some 8218 else if b = 131 then some 402
  else if b = 132 then some 8222 else if b = 133 then some 8230 else if b = 134 then some 8224
  else if b = 135 then some 8225 else if b = 136 then some 710 else if b = 137 then some 8240
  else if b = 138 then some 352 else if b = 139 then some 8249 else if b = 140 then some 338
  else if b = 142 then some 381 else if b = 145 then some 8216 else if b = 146 then some 8217
  else if b = 147 then some 8220 else if b = 148 then some 8221 else if b = 149 then some 8226
  else if b = 150 then some 8211 else if b = 151 then some 8212 else if b = 152 then some 732
  else if b = 153 then some 8482 else if b = 154 then some 353 else if b = 155 then some 8250
  else if b = 156 then some 339 else if b = 158 then some 382 else if b = 159 then some 376
  else none

def cp1252DecodeAux : List Nat → Option (List Char)
  | [] => some []
  | b :: bs =>
    if b < 128 || 160 ≤ b then (cp1252DecodeAux bs).map (Char.ofNat b :: ·)
    else
      match cp1252High b with
      | some cp => (cp1252DecodeAux bs).map (Char.ofNat cp :: ·)
      | none => none

/-- `content.decode("cp1252")`: raises `UnicodeDecodeError` exactly on the
five unassigned bytes. -/
def cp1252DecodeE (bs : List Nat) : Except PyErr String :=
  match cp1252DecodeAux bs with
  | some cs => .ok (List.asString cs)
  | none => .error .unicodeDecodeError

/-- The decoding fallback chain of `parse_cbi_file`: utf-8, latin-1, cp1252
in order, each `UnicodeDecodeError` caught and the next encoding tried; when
all three fail, the lossy `decode("latin-1", errors="replace")` (which equals
plain latin-1 decoding, as latin-1 accepts every byte). -/
def latin1DecodeE (bs : List Nat) : Except PyErr String := .ok (latin1Decode bs)

def decodeChain (bs : List Nat) : Except PyErr String :=
  match utf8DecodeE bs with
  | .ok t => .ok t
  | .error .unicodeDecodeError =>
    match latin1DecodeE bs with
    | .ok t => .ok t
    | .error .unicodeDecodeError =>
      match cp1252DecodeE bs with
      | .ok t => .ok t
      | .error .unicodeDecodeError => .ok (latin1Decode bs)
      | .error e => .error e
    | .error e => .error e
  | .error e => .error e

/-- `parse_cbi_file` input: raw bytes or an already-decoded string. -/
inductive CbiInput where
  | bytes (bs : List Nat)
  | text (s : String)

/-- State of the record-assembly loop of `parse_cbi_file`. -/
structure CbiLoopState where
  transactions : List CbiTx
  balances : List CbiBalance
  current62 : Option String
  lines63 : List String
  headerDate : Option PyDate
  deriving DecidableEq

/-- Finalize the pending `62`/`63` group, if any, appending the built
movement (malformed groups contribute nothing). -/
def flushPending (st : CbiLoopState) : Except PyErr CbiLoopState := do
  match st.current62 with
  | none => pure st
  | some cur =>
    let tx ← buildTransactionE cur st.lines63 st.headerDate
    match tx with
    | some t =>
      pure { st with transactions := st.transactions ++ [t], current62 := none, lines63 := [] }
    | none => pure { st with current62 := none, lines63 := [] }

/-- One iteration of the `for raw_line in lines` loop of `parse_cbi_file`. -/
def processCbiLine (st : CbiLoopState) (rawLine : String) : Except PyErr CbiLoopState := do
  let line := pyLstripSpace rawLine
  if pyLen line < 2 then pure st
  else
    let recordType := pySliceTo line 2
    if recordType = "RH" then
      if pyLen line ≥ 20 then do
        let d ← parseCbiDate (pySlice line 14 20)
        pure { st with headerDate :=
          match d with
          | some x => some x
          | none => st.headerDate }
      else pure st
    else if recordType = "61" then do
      let bal ← parseBalanceRecordE line "apertura" st.headerDate
      match bal with
      | some b => pure { st with balances := st.balances ++ [b] }
      | none => pure st
    else if recordType = "62" then do
      let st2 ← flushPending st
      pure { st2 with current62 := some line, lines63 := [] }
    else if recordType = "63" then
      pure { st with lines63 := st.lines63 ++ [line] }
    else if recordType = "64" then do
      let st2 ← flushPending st
      let bal ← parseBalanceRecordE line "chiusura" st2.headerDate
      match bal with
      | some b => pure { st2 with balances := st2.balances ++ [b] }
      | none => pure st2
    else if recordType = "65" || recordType = "EF" then flushPending st
    else pure st

def processCbiLines : List String → CbiLoopState → Except PyErr CbiLoopState
  | [], st => pure st
  | l :: ls, st => do processCbiLines ls (← processCbiLine st l)

/-- The `(transactions, balances)` output of `parse_cbi_file`. -/
structure CbiResult where
  transactions : List CbiTx
  balances : List CbiBalance
  deriving DecidableEq

/-- `parse_cbi_file`: decode (with fallback chain), split lines, assemble
movements and balances, flush the final pending movement. -/
def parseCbiFileE (content : CbiInput) : Except PyErr CbiResult := do
  let text ←
    match content with
    | .bytes bs => decodeChain bs
    | .text s => pure s
  let st0 : CbiLoopState :=
    { transactions := [], balances := [], current62 := none, lines63 := [], headerDate := none }
  let st ← processCbiLines (pySplitLines text) st0
  let stF ← flushPending st
  pure { transactions := stF.transactions, balances := stF.balances }

/-! ## Dedup & ingest controller (`upload` in `app/routes/banca.py`) -/

/-- Result of the dedup loop of `upload`: counters plus the store of
persisted dedup hashes. -/
structure ImportStats where
  imported : Nat
  duplicates : Nat
  store : List String
  deriving DecidableEq

/-- One iteration of the `for tx_data in transactions` dedup loop: an
existing hash counts as a duplicate and is discarded, otherwise the movement
is persisted (the freshly flushed insert is visible to later existence
checks of the same import). -/
def uploadDedupStep (acc : ImportStats) (t : CbiTx) : ImportStats :=
  if t.dedup_hash ∈ acc.store then { acc with duplicates := acc.duplicates + 1 }
  else { acc with imported := acc.imported + 1, store := acc.store ++ [t.dedup_hash] }

/-- The dedup/persist loop of `upload` over the parsed movements, against a
store holding the dedup hashes of the already-persisted movements. -/
def uploadDedup (store : List String) (txs : List CbiTx) : ImportStats :=
  txs.foldl uploadDedupStep { imported := 0, duplicates := 0, store := store }

/-! ## Rule engine (`app/services/rules_engine.py`) -/

/-- Python truthiness of a nullable string column. -/
def truthyOptStr : Option String → Bool
  | some s => !s.data.isEmpty
  | none => false

/-- Python truthiness of a nullable integer foreign-key column. -/
def truthyOptNat : Option Nat → Bool
  | some n => n ≠ 0
  | none => false

/-- Python `x or ""` on a nullable string. -/
def optStrVal : Option String → String
  | some s => s
  | none => ""

/-- The `AutoRule` model row (the two date-adjustment action columns are
omitted: `_build_actions` never reads them). -/
structure AutoRule where
  id : Nat
  name : String
  active : Bool
  priority : Int
  applies_to : String
  match_description : Option String
  match_counterpart : Option String
  match_partita_iva : Option String
  match_causale_abi : Option String
  match_amount_min : Option Q
  match_amount_max : Option Q
  match_direction : Option String
  action_category_id : Option Nat
  action_contact_id : Option Nat
  action_revenue_stream_id : Option Nat
  action_description : Option String
  action_auto_create : Bool
  action_payment_method : Option String
  action_iva_rate : Option Q
  action_notes : Option String
  deriving DecidableEq

/-- The `transaction_data` dictionary handed to the rule engine (absent keys
collapse to the empty string, as `_matches` reads them with
`data.get(...) or ""`). -/
structure RuleData where
  description : String
  counterpart : String
  partita_iva : String
  causale_abi : String
  amount : Q
  direction : String
  remittance_info : String
  deriving DecidableEq

/-- `_matches`: conjunction of every specified predicate (the `source`
argument is unused by the source as well). -/
def matchesRule (rule : AutoRule) (data : RuleData) (_source : String) : Bool :=
  if truthyOptStr rule.match_description &&
      !(strIn (pyUpper (optStrVal rule.match_description)) (pyUpper data.description) ||
        strIn (pyUpper (optStrVal rule.match_description)) (pyUpper data.remittance_info)) then
    false
  else if truthyOptStr rule.match_counterpart &&
      !(strIn (pyUpper (optStrVal rule.match_counterpart)) (pyUpper data.counterpart)) then
    false
  else if truthyOptStr rule.match_partita_iva &&
      data.partita_iva ≠ optStrVal rule.match_partita_iva then
    false
  else if truthyOptStr rule.match_causale_abi &&
      data.causale_abi ≠ optStrVal rule.match_causale_abi then
    false
  else if (match rule.match_amount_min with
           | some m => Q.blt data.amount m
           | none => false) then
    false
  else if (match rule.match_amount_max with
           | some m => Q.blt m data.amount
           | none => false) then
    false
  else if truthyOptStr rule.match_direction &&
      pyUpper data.direction ≠ pyUpper (optStrVal rule.match_direction) then
    false
  else true

/-- The actions dictionary of `_build_actions` (absent keys are `none`). -/
structure Actions where
  rule_id : Nat
  rule_name : String
  category_id : Option Nat
  contact_id : Option Nat
  revenue_stream_id : Option Nat
  description : Option String
  auto_create : Bool
  payment_method : Option String
  iva_rate : Option Q
  notes : Option String
  deriving DecidableEq

/-- `_build_actions`. -/
def buildActions (rule : AutoRule) : Actions :=
  { rule_id := rule.id
    rule_name := rule.name
    category_id := if truthyOptNat rule.action_category_id then rule.action_category_id else none
    contact_id := if truthyOptNat rule.action_contact_id then rule.action_contact_id else none
    revenue_stream_id :=
      if truthyOptNat rule.action_revenue_stream_id then rule.action_revenue_stream_id else none
    description := if truthyOptStr rule.action_description then rule.action_description else none
    auto_create := rule.action_auto_create
    payment_method :=
      if truthyOptStr rule.action_payment_method then rule.action_payment_method else none
    iva_rate := rule.action_iva_rate
    notes := if truthyOptStr rule.action_notes then rule.action_notes else none }

/-- Rule ordering of the query `order_by(AutoRule.priority.desc())`: priority
descending; the order among equal priorities is the stored order (the query
has no further sort key). -/
def priorityDesc (a b : AutoRule) : Bool := b.priority ≤ a.priority

/-- The rule list fetched by `apply_rules`: active rules whose scope is the
source or `"tutti"`, ordered by priority descending. -/
def applicableRules (rules : List AutoRule) (source : String) : List AutoRule :=
  stableSortBy priorityDesc
    (rules.filter (fun r => r.active && (r.applies_to == source || r.applies_to == "tutti")))

/-- The `for rule in rules` loop: return the first matching rule's actions. -/
def firstMatchingActions (rules : List AutoRule) (data : RuleData) (source : String) :
    Option Actions :=
  match rules with
  | [] => none
  | r :: rs =>
    if matchesRule r data source then some (buildActions r)
    else firstMatchingActions rs data source

/-- `apply_rules`. -/
def applyRules (rules : List AutoRule) (data : RuleData) (source : String) : Option Actions :=
  firstMatchingActions (applicableRules rules source) data source

/-- `apply_specific_rules`: same, restricted to the given rule ids. -/
def applySpecificRules (rules : List AutoRule) (data : RuleData) (source : String)
    (ruleIds : List Nat) : Option Actions :=
  firstMatchingActions
    (applicableRules (rules.filter (fun r => ruleIds.contains r.id)) source) data source

/-- Lexicographic string comparison (by code point). -/
def strLeAux : List Char → List Char → Bool
  | [], _ => true
  | _ :: _, [] => false
  | a :: as, b :: bs => if a.toNat < b.toNat then true else if b.toNat < a.toNat then false else strLeAux as bs

def strLe (a b : String) : Bool := strLeAux a.data b.data

/-- Rule ordering as worded by the specification: priority descending, ties
broken by name.  (Definition follows the spec wording, for comparison with
`applicableRules`, which models the code.) -/
def priorityNameDesc (a b : AutoRule) : Bool :=
  b.priority < a.priority || (a.priority == b.priority && strLe a.name b.name)

/-- Rule evaluation under the spec-worded ordering, for comparison with
`applyRules`. -/
def applyRulesSpecOrdered (rules : List AutoRule) (data : RuleData) (source : String) :
    Option Actions :=
  firstMatchingActions
    (stableSortBy priorityNameDesc
      (rules.filter (fun r => r.active && (r.applies_to == source || r.applies_to == "tutti"))))
    data source

/-! ## Reconciliation matcher (`app/services/reconciliation.py`) and the
manual routes of `app/routes/banca.py`

Database rows are structures; the shared session is a `DB` value threaded
explicitly.  `datetime.date` is abstracted to an integer day number. -/

structure Contact where
  id : Nat
  name : String
  deriving DecidableEq

/-- A `Transaction` (prima nota ledger entry) row; `contact` is resolved
through the `contacts` table of the `DB`. -/
structure Transaction where
  id : Nat
  type : String
  source : String
  official : Bool
  amount : Q
  date : Int
  description : String
  category_id : Option Nat
  contact_id : Option Nat
  revenue_stream_id : Option Nat
  payment_status : String
  payment_method : Option String
  payment_date : Option Int
  deriving DecidableEq

/-- A `BankTransaction` (imported CBI movement) row. -/
structure BankTransaction where
  id : Nat
  operation_date : Int
  value_date : Option Int
  amount : Q
  direction : String
  causale_abi : String
  causale_description : String
  counterpart_name : String
  counterpart_address : String
  remittance_info : String
  description : String
  reference_code : String
  dedup_hash : String
  status : String
  matched_transaction_id : Option Nat
  matched_by : Option String
  matched_rule_id : Option Nat
  ignore_reason_id : Option Nat
  deriving DecidableEq

/-- The database session state read and written by the matcher. -/
structure DB where
  bankTxs : List BankTransaction
  txs : List Transaction
  rules : List AutoRule
  contacts : List Contact
  nextTxId : Nat
  deriving DecidableEq

def DB.updateBank (db : DB) (i : Nat) (f : BankTransaction → BankTransaction) : DB :=
  { db with bankTxs := db.bankTxs.map (fun b => if b.id = i then f b else b) }

def DB.updateTx (db : DB) (i : Nat) (f : Transaction → Transaction) : DB :=
  { db with txs := db.txs.map (fun t => if t.id = i then f t else t) }

/-- The ORM relationship `tx.contact`. -/
def DB.getContact (db : DB) (t : Transaction) : Option Contact :=
  t.contact_id.bind (fun cid => db.contacts.find? (fun c => c.id == cid))

/-- The `rule_data` dictionary built by `reconcile_batch` (and by
`regole_riapplica`, identically). -/
def bankRuleData (bt : BankTransaction) : RuleData :=
  { description := bt.causale_description
    counterpart := bt.counterpart_name
    partita_iva := ""
    causale_abi := bt.causale_abi
    amount := bt.amount
    direction := bt.direction
    remittance_info := bt.remittance_info }

/-- Credit movements settle income entries, debit movements expense entries. -/
def txTypeFor (bt : BankTransaction) : String :=
  if bt.direction = "C" then "entrata" else "uscita"

/-- `_get_candidates`: same source, matching polarity, dated within 30 days
either side of the operation date, for the structured (`sdi`) source still
unpaid or partially paid, and not already linked to a different movement. -/
def getCandidates (db : DB) (bt : BankTransaction) (source : String) : List Transaction :=
  db.txs.filter (fun tx =>
    tx.source == source &&
    tx.type == txTypeFor bt &&
    decide (bt.operation_date - 30 ≤ tx.date) && decide (tx.date ≤ bt.operation_date + 30) &&
    (if source = "sdi" then tx.payment_status == "da_pagare" || tx.payment_status == "parziale"
     else true) &&
    !(db.bankTxs.any (fun bt2 => bt2.matched_transaction_id == some tx.id && bt2.id ≠ bt.id)))

/-- `_name_similarity`: 0.9 when one normalized name contains the other,
otherwise the `difflib.SequenceMatcher(None, n1, n2).ratio()` value; the
standard-library ratio is a parameter of the model. -/
def nameSimilarity (ratio : String → String → Q) (name1 name2 : String) : Q :=
  if name1.data.isEmpty || name2.data.isEmpty then ⟨0, 1⟩
  else
    let n1 := pyStrip (pyUpper name1)
    let n2 := pyStrip (pyUpper name2)
    if strIn n1 n2 || strIn n2 n1 then qNorm 9 10
    else ratio n1 n2

/-- `_compute_score`: additive score over the amount, counterpart and date
dimensions, with the human-readable reasons accumulated alongside. -/
def computeScore (ratio : String → String → Q) (db : DB) (bt : BankTransaction)
    (tx : Transaction) : Nat × List String :=
  let amtPart : Nat × List String :=
    if Q.blt ⟨0, 1⟩ tx.amount then
      let diffPct := Q.div (Q.abs (Q.sub bt.amount tx.amount)) tx.amount
      if Q.ble diffPct (qNorm 2 100) then
        if diffPct = ⟨0, 1⟩ then (50, ["Importo identico"])
        else (50, ["Importo simile (" ++ fmtPct 1 diffPct ++ ")"])
      else if Q.ble diffPct (qNorm 10 100) then (20, ["Importo vicino (" ++ fmtPct 1 diffPct ++ ")"])
      else (0, [])
    else (0, [])
  let namePart : Nat × List String :=
    if !bt.counterpart_name.data.isEmpty then
      match db.getContact tx with
      | some contact =>
        let similarity := nameSimilarity ratio bt.counterpart_name contact.name
        if Q.blt (qNorm 7 10) similarity then
          (30, ["Nome controparte simile (" ++ fmtPct 0 similarity ++ ")"])
        else if Q.blt (qNorm 4 10) similarity then
          (15, ["Nome controparte parziale (" ++ fmtPct 0 similarity ++ ")"])
        else (0, [])
      | none => (0, [])
    else (0, [])
  let daysDiff := (bt.operation_date - tx.date).natAbs
  let datePart : Nat × List String :=
    if daysDiff ≤ 7 then (20, ["Data vicina (" ++ Nat.repr daysDiff ++ "gg)"])
    else if daysDiff ≤ 15 then (10, ["Data compatibile (" ++ Nat.repr daysDiff ++ "gg)"])
    else (0, [])
  (amtPart.1 + namePart.1 + datePart.1, amtPart.2 ++ namePart.2 ++ datePart.2)

/-- `_compute_score` with the float division modelled as the raising Python
operation (`pyDiv`), for the division-safety analysis. -/
def computeScoreE (ratio : String → String → Q) (db : DB) (bt : BankTransaction)
    (tx : Transaction) : Except PyErr (Nat × List String) := do
  let amtPart : Nat × List String ←
    if Q.blt ⟨0, 1⟩ tx.amount then do
      let diffPct ← pyDiv (Q.abs (Q.sub bt.amount tx.amount)) tx.amount
      pure (if Q.ble diffPct (qNorm 2 100) then
              if diffPct = ⟨0, 1⟩ then (50, ["Importo identico"])
              else (50, ["Importo simile (" ++ fmtPct 1 diffPct ++ ")"])
            else if Q.ble diffPct (qNorm 10 100) then
              (20, ["Importo vicino (" ++ fmtPct 1 diffPct ++ ")"])
            else (0, []))
    else pure (0, [])
  let namePart : Nat × List String :=
    if !bt.counterpart_name.data.isEmpty then
      match db.getContact tx with
      | some contact =>
        let similarity := nameSimilarity ratio bt.counterpart_name contact.name
        if Q.blt (qNorm 7 10) similarity then
          (30, ["Nome controparte simile (" ++ fmtPct 0 similarity ++ ")"])
        else if Q.blt (qNorm 4 10) similarity then
          (15, ["Nome controparte parziale (" ++ fmtPct 0 similarity ++ ")"])
        else (0, [])
      | none => (0, [])
    else (0, [])
  let daysDiff := (bt.operation_date - tx.date).natAbs
  let datePart : Nat × List String :=
    if daysDiff ≤ 7 then (20, ["Data vicina (" ++ Nat.repr daysDiff ++ "gg)"])
    else if daysDiff ≤ 15 then (10, ["Data compatibile (" ++ Nat.repr daysDiff ++ "gg)"])
    else (0, [])
  pure (amtPart.1 + namePart.1 + datePart.1, amtPart.2 ++ namePart.2 ++ datePart.2)

/-- A `{"transaction": ..., "score": ..., "reasons": ...}` proposal. -/
structure MatchProp where
  transaction : Transaction
  score : Nat
  reasons : List String
  deriving DecidableEq

/-- The best-candidate loop of `_find_best_match`: keep the first candidate
whose score strictly exceeds the running best (initially 0). -/
def bestLoop (ratio : String → String → Q) (db : DB) (bt : BankTransaction) :
    List Transaction → Option MatchProp → Nat → Option MatchProp
  | [], best, _ => best
  | tx :: rest, best, bestScore =>
    let sr := computeScore ratio db bt tx
    if bestScore < sr.1 then bestLoop ratio db bt rest (some ⟨tx, sr.1, sr.2⟩) sr.1
    else bestLoop ratio db bt rest best bestScore

/-- `_find_best_match`. -/
def findBestMatch (ratio : String → String → Q) (db : DB) (bt : BankTransaction)
    (source : String) : Option MatchProp :=
  bestLoop ratio db bt (getCandidates db bt source) none 0

/-- The per-source proposal pass of `get_match_proposals`: candidates whose
score strictly exceeds 20, in candidate order. -/
def proposalsFor (ratio : String → String → Q) (db : DB) (bt : BankTransaction)
    (source : String) : List MatchProp :=
  (getCandidates db bt source).filterMap (fun tx =>
    let sr := computeScore ratio db bt tx
    if 20 < sr.1 then some ⟨tx, sr.1, sr.2⟩ else none)

/-- `proposals.sort(key=lambda x: x["score"], reverse=True)` ordering. -/
def scoreDesc (a b : MatchProp) : Bool := b.score ≤ a.score

/-- `get_match_proposals`: sdi, then manual, then bank pools; stable sort by
score descending; first five. -/
def getMatchProposals (ratio : String → String → Q) (db : DB) (bt : BankTransaction) :
    List MatchProp :=
  (stableSortBy scoreDesc
    (proposalsFor ratio db bt "sdi" ++ proposalsFor ratio db bt "manuale" ++
      proposalsFor ratio db bt "banca")).take 5

/-- The payment update of `_link_transaction` (and of the manual
`riconcilia` route) on a structured-source entry. -/
def markSdiPaid (bt : BankTransaction) (t : Transaction) : Transaction :=
  { t with payment_status := "pagato", payment_date := some bt.operation_date }

/-- `_link_transaction`. -/
def linkTransaction (db : DB) (bt : BankTransaction) (tx : Transaction) (matchedBy : String) :
    DB :=
  let db1 := db.updateBank bt.id (fun b =>
    { b with
      status := "riconciliato"
      matched_transaction_id := some tx.id
      matched_by := some matchedBy })
  if tx.source == "sdi" && (tx.payment_status == "da_pagare" || tx.payment_status == "parziale")
  then db1.updateTx tx.id (markSdiPaid bt)
  else db1

/-- `_build_description`. -/
def buildDescription (bt : BankTransaction) : String :=
  let parts :=
    (if !bt.counterpart_name.data.isEmpty then [bt.counterpart_name] else []) ++
    (if !bt.causale_description.data.isEmpty then [bt.causale_description] else []) ++
    (if !bt.remittance_info.data.isEmpty then [pySliceTo bt.remittance_info 100] else [])
  if parts.isEmpty then "Movimento bancario " ++ intRepr bt.operation_date
  else joinSep " - " parts

/-- `_create_transaction_from_bank`: insert the synthesized ledger entry
(with the flushed autoincrement id) and point the movement at it. -/
def createTransactionFromBank (db : DB) (bt : BankTransaction) (acts : Actions) : DB :=
  let tx : Transaction :=
    { id := db.nextTxId
      type := txTypeFor bt
      source := "banca"
      official := true
      amount := bt.amount
      date := bt.operation_date
      description :=
        match acts.description with
        | some d => if !d.data.isEmpty then d else buildDescription bt
        | none => buildDescription bt
      category_id := acts.category_id
      contact_id := acts.contact_id
      revenue_stream_id := acts.revenue_stream_id
      payment_status := "pagato"
      payment_method := some "bonifico"
      payment_date := some bt.operation_date }
  let db1 := { db with txs := db.txs ++ [tx], nextTxId := db.nextTxId + 1 }
  db1.updateBank bt.id (fun b => { b with matched_transaction_id := some tx.id })

/-- `AUTO_MATCH_THRESHOLD`. -/
def AUTO_MATCH_THRESHOLD : Nat := 80

/-- The `reconcile_batch` statistics `{"matched", "pending", "auto_created"}`. -/
structure RecStats where
  matched : Nat
  pending : Nat
  auto_created : Nat
  deriving DecidableEq

/-- Stage 3 of `reconcile_batch`: best manual-source match, falling back to
the bank-created pool when the manual best is missing or below threshold. -/
def reconcileStage3 (ratio : String → String → Q) (db : DB) (bt : BankTransaction) :
    DB × RecStats :=
  let m1 := findBestMatch ratio db bt "manuale"
  let m : Option MatchProp :=
    match m1 with
    | some mm => if mm.score < AUTO_MATCH_THRESHOLD then findBestMatch ratio db bt "banca" else some mm
    | none => findBestMatch ratio db bt "banca"
  match m with
  | some mm =>
    if AUTO_MATCH_THRESHOLD ≤ mm.score then
      (linkTransaction db bt mm.transaction "auto", ⟨1, 0, 0⟩)
    else (db, ⟨0, 1, 0⟩)
  | none => (db, ⟨0, 1, 0⟩)

/-- Stages 2 and 3 of `reconcile_batch` (after the rule stage declined). -/
def reconcileStages (ratio : String → String → Q) (db : DB) (bt : BankTransaction) :
    DB × RecStats :=
  match findBestMatch ratio db bt "sdi" with
  | some m =>
    if AUTO_MATCH_THRESHOLD ≤ m.score then
      (linkTransaction db bt m.transaction "auto", ⟨1, 0, 0⟩)
    else reconcileStage3 ratio db bt
  | none => reconcileStage3 ratio db bt

/-- The body of the `for bt in bank_transactions` loop of `reconcile_batch`,
returning the updated session and this movement's statistics deltas. -/
def reconcileOne (ratio : String → String → Q) (db : DB) (bt : BankTransaction) :
    DB × RecStats :=
  if bt.status ≠ "non_riconciliato" then (db, ⟨0, 0, 0⟩)
  else
    match applyRules db.rules (bankRuleData bt) "banca" with
    | some acts =>
      if acts.auto_create then
        let db1 := createTransactionFromBank db bt acts
        let db2 := db1.updateBank bt.id (fun b =>
          { b with
            status := "riconciliato"
            matched_by := some "regola"
            matched_rule_id := some acts.rule_id })
        (db2, ⟨1, 0, 1⟩)
      else reconcileStages ratio db bt
    | none => reconcileStages ratio db bt

/-- `reconcile_batch` over the movements with the given ids, in order. -/
def reconcileBatch (ratio : String → String → Q) (db : DB) (ids : List Nat) : DB × RecStats :=
  ids.foldl
    (fun acc i =>
      match acc.1.bankTxs.find? (fun b => b.id == i) with
      | some bt =>
        let r := reconcileOne ratio acc.1 bt
        (r.1, ⟨acc.2.matched + r.2.matched, acc.2.pending + r.2.pending,
          acc.2.auto_created + r.2.auto_created⟩)
      | none => acc)
    (db, ⟨0, 0, 0⟩)

/-- The manual-confirm route `riconcilia`: force the link to the chosen
ledger entry (`matched_by = "manuale"`), marking a structured-source entry
paid; missing ids abort with 404 (no change). -/
def riconcilia (db : DB) (btId txId : Nat) : DB :=
  match db.bankTxs.find? (fun b => b.id == btId), db.txs.find? (fun t => t.id == txId) with
  | some bt, some tx =>
    let db1 := db.updateBank btId (fun b =>
      { b with
        status := "riconciliato"
        matched_transaction_id := some tx.id
        matched_by := some "manuale" })
    if tx.source == "sdi" && (tx.payment_status == "da_pagare" || tx.payment_status == "parziale")
    then db1.updateTx tx.id (markSdiPaid bt)
    else db1
  | _, _ => db

/-- Modelled from the spec: `create_transaction_from_rule` is imported by
`app/routes/banca.py` from the reconciliation service, but its definition is
not among the sources.  Following §4.4 stage 1 — "synthesize a ledger entry
from the action payload and the movement's amount/date, link it
(`matched_by = rule`), and mark the movement reconciled" — and the sibling
constructor `_create_transaction_from_bank`, it creates the entry and marks
the movement reconciled with `matched_by = "regola"` and the applied rule
recorded. -/
def createTransactionFromRule (db : DB) (bt : BankTransaction) (acts : Actions) : DB :=
  let db1 := createTransactionFromBank db bt acts
  db1.updateBank bt.id (fun b =>
    { b with
      status := "riconciliato"
      matched_by := some "regola"
      matched_rule_id := some acts.rule_id })

/-- The body of the `for bt in bank_txs` loop of `regole_riapplica`: skip a
movement already reconciled with a linked entry; otherwise apply the selected
rules, creating the ledger entry (auto-create on an unreconciled movement) or
recording the classifying rule. Returns `(session, created, updated)`
deltas. -/
def riapplicaOne (db : DB) (ruleIds : List Nat) (bt : BankTransaction) : DB × Nat × Nat :=
  if bt.status == "riconciliato" && bt.matched_transaction_id.isSome then (db, 0, 0)
  else
    match applySpecificRules db.rules (bankRuleData bt) "banca" ruleIds with
    | none => (db, 0, 0)
    | some acts =>
      if acts.auto_create && bt.status ≠ "riconciliato" then
        (createTransactionFromRule db bt acts, 1, 0)
      else (db.updateBank bt.id (fun b => { b with matched_rule_id := some acts.rule_id }), 0, 1)

/-- One fold step of the `regole_riapplica` loop, fetching the movement by
id from the current session. -/
def riapplicaStep (ruleIds : List Nat) (acc : DB × Nat × Nat) (i : Nat) : DB × Nat × Nat :=
  match acc.1.bankTxs.find? (fun b => b.id == i) with
  | some bt =>
    let r := riapplicaOne acc.1 ruleIds bt
    (r.1, acc.2.1 + r.2.1, acc.2.2 + r.2.2)
  | none => acc

/-- `regole_riapplica`: scope filter over the persisted movements, then the
per-movement loop. -/
def regoleRiapplica (db : DB) (ruleIds : List Nat) (scope : String) : DB × Nat × Nat :=
  let targets :=
    (if scope = "tutti" then db.bankTxs
     else db.bankTxs.filter (fun b => b.status == "non_riconciliato")).map (fun b => b.id)
  targets.foldl (riapplicaStep ruleIds) (db, 0, 0)

deriving instance DecidableEq for Except

/-! ## Totality of the parser pipeline (for the safety claims) -/

theorem pyFloat_classify (s : String) :
    (∃ v, pyFloat s = .ok v) ∨ pyFloat s = .error .valueError := by
  simp only [pyFloat]
  repeat' split
  all_goals first
    | exact Or.inl ⟨_, rfl⟩
    | exact Or.inr rfl

theorem parseItalianAmount_ok (s : String) : ∃ v, parseItalianAmount s = .ok v := by
  simp only [parseItalianAmount]
  split
  · exact ⟨_, rfl⟩
  · rcases pyFloat_classify (pyStrip (pyReplaceChar ',' '.' (pyRemoveChar '.' s))) with ⟨v, hv⟩ | hv <;>
      simp [hv]

theorem strptimeDDMMYY_classify (s : String) :
    (∃ d, strptimeDDMMYY s = .ok d) ∨ strptimeDDMMYY s = .error .valueError := by
  simp only [strptimeDDMMYY]
  repeat' split
  all_goals first
    | exact Or.inl ⟨_, rfl⟩
    | exact Or.inr rfl

theorem parseCbiDate_ok (s : String) : ∃ o, parseCbiDate s = .ok o := by
  simp only [parseCbiDate]
  split
  · exact ⟨_, rfl⟩
  · split
    · exact ⟨_, rfl⟩
    · rcases strptimeDDMMYY_classify (pyStrip (pySliceTo s 6)) with ⟨d, hd⟩ | hd <;>
        simp [hd]

theorem exceptBind_ok {ε α β : Type} (a : α) (f : α → Except ε β) :
    (Bind.bind (Except.ok a) f : Except ε β) = f a := rfl

theorem parseBalanceBody_ok (line balanceType : String) (hd : Option PyDate) :
    ∃ o, parseBalanceBody line balanceType hd = .ok o := by
  simp only [parseBalanceBody]
  split
  · exact ⟨_, rfl⟩
  · rename_i dateStr sign amountRaw heq
    obtain ⟨o1, h1⟩ := parseCbiDate_ok dateStr
    obtain ⟨v, hv⟩ := parseItalianAmount_ok amountRaw
    rw [h1, exceptBind_ok]
    split
    · exact ⟨_, rfl⟩
    · rw [hv, exceptBind_ok]
      exact ⟨_, rfl⟩

theorem parseBalanceRecordE_ok (line balanceType : String) (hd : Option PyDate) :
    ∃ o, parseBalanceRecordE line balanceType hd = .ok o := by
  unfold parseBalanceRecordE
  split
  · exact ⟨_, rfl⟩
  · obtain ⟨o, ho⟩ := parseBalanceBody_ok line balanceType hd
    rw [ho]
    exact ⟨_, rfl⟩

theorem buildTransactionBody_ok (l : String) (ls : List String) (hd : Option PyDate) :
    ∃ o, buildTransactionBody l ls hd = .ok o := by
  simp only [buildTransactionBody]
  obtain ⟨o1, h1⟩ := parseCbiDate_ok (pySlice l 12 18)
  obtain ⟨o2, h2⟩ := parseCbiDate_ok (pySlice l 18 24)
  obtain ⟨v, hv⟩ := parseItalianAmount_ok (pyStrip (pySlice l 25 40))
  rw [h1, exceptBind_ok, h2, exceptBind_ok]
  split
  · exact ⟨_, rfl⟩
  · split
    · exact ⟨_, rfl⟩
    · rw [hv, exceptBind_ok]
      split
      · exact ⟨_, rfl⟩
      · exact ⟨_, rfl⟩

theorem buildTransactionE_ok (l : String) (ls : List String) (hd : Option PyDate) :
    ∃ o, buildTransactionE l ls hd = .ok o := by
  simp only [buildTransactionE]
  split
  · exact ⟨_, rfl⟩
  · obtain ⟨o, ho⟩ := buildTransactionBody_ok l ls hd
    rw [ho]
    exact ⟨_, rfl⟩

theorem flushPending_ok (st : CbiLoopState) : ∃ st2, flushPending st = .ok st2 := by
  simp only [flushPending]
  split
  · exact ⟨_, rfl⟩
  · rename_i cur heq
    obtain ⟨o, ho⟩ := buildTransactionE_ok cur st.lines63 st.headerDate
    rw [ho, exceptBind_ok]
    split
    · exact ⟨_, rfl⟩
    · exact ⟨_, rfl⟩

theorem processCbiLine_ok (st : CbiLoopState) (l : String) :
    ∃ st2, processCbiLine st l = .ok st2 := by
  simp only [processCbiLine]
  obtain ⟨d1, hd1⟩ := parseCbiDate_ok (pySlice (pyLstripSpace l) 14 20)
  obtain ⟨b1, hb1⟩ := parseBalanceRecordE_ok (pyLstripSpace l) "apertura" st.headerDate
  obtain ⟨f1, hf1⟩ := flushPending_ok st
  split
  · exact ⟨_, rfl⟩
  · split
    · split
      · rw [hd1, exceptBind_ok]
        exact ⟨_, rfl⟩
      · exact ⟨_, rfl⟩
    · split
      · rw [hb1, exceptBind_ok]
        split
        · exact ⟨_, rfl⟩
        · exact ⟨_, rfl⟩
      · split
        · rw [hf1, exceptBind_ok]
          exact ⟨_, rfl⟩
        · split
          · exact ⟨_, rfl⟩
          · split
            · rw [hf1, exceptBind_ok]
              obtain ⟨b2, hb2⟩ := parseBalanceRecordE_ok (pyLstripSpace l) "chiusura" f1.headerDate
              rw [hb2, exceptBind_ok]
              split
              · exact ⟨_, rfl⟩
              · exact ⟨_, rfl⟩
            · split
              · exact ⟨f1, hf1⟩
              · exact ⟨_, rfl⟩

theorem processCbiLines_ok (ls : List String) :
    ∀ st : CbiLoopState, ∃ st2, processCbiLines ls st = .ok st2 := by
  induction ls with
  | nil => intro st; exact ⟨st, rfl⟩
  | cons l ls ih =>
    intro st
    obtain ⟨st1, h1⟩ := processCbiLine_ok st l
    obtain ⟨st2, h2⟩ := ih st1
    refine ⟨st2, ?_⟩
    simp only [processCbiLines]
    rw [h1, exceptBind_ok]
    exact h2

theorem utf8DecodeE_classify (bs : List Nat) :
    (∃ v, utf8DecodeE bs = .ok v) ∨ utf8DecodeE bs = .error .unicodeDecodeError := by
  unfold utf8DecodeE
  cases utf8DecodeAux bs
  · exact Or.inr rfl
  · exact Or.inl ⟨_, rfl⟩

theorem decodeChain_ok (bs : List Nat) : ∃ t, decodeChain bs = .ok t := by
  unfold decodeChain
  rcases utf8DecodeE_classify bs with ⟨v, hv⟩ | hv <;> rw [hv] <;> exact ⟨_, rfl⟩

/-- Claim C9: the parser is total over all byte inputs — `parse_cbi_file`
always returns a `(balances, movements)` result (never an exception), the
encoding fallback chain absorbs every decoding failure, and
`_build_transaction` never raises on a malformed record (it yields `none`,
which the assembly loop skips). -/
theorem C9_parser_total :
    (∀ content : CbiInput, ∃ r : CbiResult, parseCbiFileE content = .ok r) ∧
    (∀ (l62 : String) (ls63 : List String) (hd : Option PyDate),
      ∃ o, buildTransactionE l62 ls63 hd = .ok o) ∧
    (∀ bs : List Nat, ∃ t, decodeChain bs = .ok t) := by
  refine ⟨?_, buildTransactionE_ok, decodeChain_ok⟩
  intro content
  cases content with
  | bytes bs =>
    obtain ⟨t, ht⟩ := decodeChain_ok bs
    obtain ⟨st1, h1⟩ := processCbiLines_ok (pySplitLines t)
      { transactions := [], balances := [], current62 := none, lines63 := [], headerDate := none }
    obtain ⟨st2, h2⟩ := flushPending_ok st1
    refine ⟨⟨st2.transactions, st2.balances⟩, ?_⟩
    simp only [parseCbiFileE]
    rw [ht, exceptBind_ok, h1, exceptBind_ok, h2, exceptBind_ok]
    rfl
  | text s =>
    obtain ⟨st1, h1⟩ := processCbiLines_ok (pySplitLines s)
      { transactions := [], balances := [], current62 := none, lines63 := [], headerDate := none }
    obtain ⟨st2, h2⟩ := flushPending_ok st1
    refine ⟨⟨st2.transactions, st2.balances⟩, ?_⟩
    simp only [parseCbiFileE]
    have hp : (pure s : Except PyErr String) = .ok s := rfl
    rw [hp, exceptBind_ok, h1, exceptBind_ok, h2, exceptBind_ok]
    rfl

/-- Claim C2: the dedup hash is a pure, deterministic function of exactly
the five inputs (operation date, parsed amount magnitude, reference code,
bank reason code, counterpart name): two parsed movements agreeing on the
five hash inputs get equal dedup hashes no matter how every other field
(value date, direction, address, routing code, remittance, description, raw
record text) differs, and the movement's hash field is `dedupHash` of
exactly those five values. -/
theorem C2_dedup_hash_pure :
    (∀ (d d2 : PyDate) (a a2 : Q) (rc rc2 cab cab2 nm nm2 : String)
       (vd vd2 : Option PyDate)
       (dir dir2 caddr caddr2 ocab ocab2 ri ri2 desc desc2 raw raw2 : String),
      d = d2 → a = a2 → rc = rc2 → cab = cab2 → nm = nm2 →
      (mkCbiTx d vd a dir cab nm caddr ocab ri rc desc raw).dedup_hash =
        (mkCbiTx d2 vd2 a2 dir2 cab2 nm2 caddr2 ocab2 ri2 rc2 desc2 raw2).dedup_hash) ∧
    (∀ (d : PyDate) (vd : Option PyDate) (a : Q) (dir cab nm caddr ocab ri rc desc raw : String),
      (mkCbiTx d vd a dir cab nm caddr ocab ri rc desc raw).dedup_hash =
        dedupHash d a rc cab nm ∧
      (mkCbiTx d vd a dir cab nm caddr ocab ri rc desc raw).amount = Q.roundTo 2 a) := by
  constructor
  · intro d d2 a a2 rc rc2 cab cab2 nm nm2 vd vd2 dir dir2 caddr caddr2 ocab ocab2 ri ri2
      desc desc2 raw raw2 h1 h2 h3 h4 h5
    subst h1; subst h2; subst h3; subst h4; subst h5
    rfl
  · intro d vd a dir cab nm caddr ocab ri rc desc raw
    exact ⟨rfl, rfl⟩

/-- Witness for C2: two movements differing in value date, direction,
address, remittance, description and raw text, but agreeing on the five hash
inputs, share the dedup hash. -/
theorem C2_dedup_hash_pure_witness :
    (mkCbiTx ⟨2025, 1, 5⟩ none ⟨437796, 100⟩ "C" "480" "ACME" "" "" "" "REF1" "x" "raw1").dedup_hash =
      (mkCbiTx ⟨2025, 1, 5⟩ (some ⟨2025, 1, 6⟩) ⟨437796, 100⟩ "D" "480" "ACME" "addr" "03475/01605"
        "ri" "REF1" "y" "raw2").dedup_hash := by
  apply C2_dedup_hash_pure.1 <;> rfl

/-! ### Idempotence of re-import (dedup controller) -/

theorem uploadDedup_store_mono (txs : List CbiTx) :
    ∀ (acc : ImportStats) (x : String), x ∈ acc.store → x ∈ (txs.foldl uploadDedupStep acc).store := by
  induction txs with
  | nil => intro acc x hx; exact hx
  | cons t ts ih =>
    intro acc x hx
    simp only [List.foldl_cons]
    apply ih
    unfold uploadDedupStep
    split
    · exact hx
    · simp only [List.mem_append]
      exact Or.inl hx

theorem uploadDedup_hash_mem (txs : List CbiTx) :
    ∀ (acc : ImportStats) (t : CbiTx), t ∈ txs →
      t.dedup_hash ∈ (txs.foldl uploadDedupStep acc).store := by
  induction txs with
  | nil => intro acc t ht; cases ht
  | cons t0 ts ih =>
    intro acc t ht
    rcases List.mem_cons.mp ht with h | h
    · subst h
      simp only [List.foldl_cons]
      apply uploadDedup_store_mono
      unfold uploadDedupStep
      split
      · assumption
      · simp
    · simp only [List.foldl_cons]
      exact ih _ t h

theorem uploadDedup_all_dup (txs : List CbiTx) :
    ∀ acc : ImportStats, (∀ t ∈ txs, t.dedup_hash ∈ acc.store) →
      txs.foldl uploadDedupStep acc =
        { imported := acc.imported, duplicates := acc.duplicates + txs.length,
          store := acc.store } := by
  induction txs with
  | nil => intro acc _; simp
  | cons t ts ih =>
    intro acc h
    have ht : t.dedup_hash ∈ acc.store := h t (List.mem_cons_self t ts)
    simp only [List.foldl_cons]
    have hstep : uploadDedupStep acc t = { acc with duplicates := acc.duplicates + 1 } := by
      unfold uploadDedupStep
      rw [if_pos ht]
    rw [hstep, ih { acc with duplicates := acc.duplicates + 1 }
      (fun u hu => h u (List.mem_cons_of_mem _ hu))]
    have harith : acc.duplicates + 1 + ts.length = acc.duplicates + (t :: ts).length := by
      simp [List.length_cons]
      omega
    rw [harith]

/-- Claim C3: import is idempotent with respect to file content — running
the dedup/persist loop a second time over the same parsed movements, against
the store left by the first run, persists zero new movements, classifies
every movement of the file as a duplicate, and leaves the store unchanged. -/
theorem C3_reimport_idempotent (store : List String) (txs : List CbiTx) :
    uploadDedup ((uploadDedup store txs).store) txs =
      { imported := 0, duplicates := txs.length,
        store := (uploadDedup store txs).store } := by
  unfold uploadDedup
  rw [uploadDedup_all_dup txs
    { imported := 0, duplicates := 0,
      store := (List.foldl uploadDedupStep
        { imported := 0, duplicates := 0, store := store } txs).store }
    (fun t ht => uploadDedup_hash_mem txs
      { imported := 0, duplicates := 0, store := store } t ht)]
  rw [Nat.zero_add]

/-! ### Rule evaluation order (claim C4) -/

theorem firstMatchingActions_eq_find (rs : List AutoRule) (data : RuleData) (source : String) :
    firstMatchingActions rs data source =
      (rs.find? (fun r => matchesRule r data source)).map buildActions := by
  induction rs with
  | nil => rfl
  | cons r rs ih =>
    by_cases h : matchesRule r data source = true
    · simp [firstMatchingActions, List.find?_cons, h]
    · simp only [firstMatchingActions, List.find?_cons]
      rw [if_neg h]
      simp only [Bool.not_eq_true] at h
      rw [h]
      exact ih

/-- Claim C4 (amended): rule evaluation considers exactly the rules with
`active = true` and scope in `{source, "tutti"}`, visits them in priority-
descending order (ties stay in stored order; the query has no name
tie-break), and returns the first matching rule's action set — one
`_build_actions` payload, never a merge of two rules. -/
theorem C4_rule_evaluation :
    (∀ (rules : List AutoRule) (source : String) (r : AutoRule),
      r ∈ applicableRules rules source ↔
        r ∈ rules ∧ r.active = true ∧ (r.applies_to = source ∨ r.applies_to = "tutti")) ∧
    (∀ (rules : List AutoRule) (source : String),
      (applicableRules rules source).Pairwise (fun a b => b.priority ≤ a.priority)) ∧
    (∀ (rules : List AutoRule) (data : RuleData) (source : String),
      applyRules rules data source =
        ((applicableRules rules source).find? (fun r => matchesRule r data source)).map
          buildActions) := by
  refine ⟨?_, ?_, ?_⟩
  · intro rules source r
    rw [applicableRules, mem_stableSortBy, List.mem_filter]
    simp [Bool.and_eq_true]
  · intro rules source
    have := pairwise_stableSortBy priorityDesc
      (fun a b => by simp [priorityDesc]; omega)
      (fun a b c h1 h2 => by simp [priorityDesc] at *; omega)
      (rules.filter (fun r => r.active && (r.applies_to == source || r.applies_to == "tutti")))
    refine List.Pairwise.imp ?_ this
    intro a b h
    simpa [priorityDesc] using h
  · intro rules data source
    exact firstMatchingActions_eq_find _ _ _

def c4Data : RuleData :=
  { description := "", counterpart := "", partita_iva := "", causale_abi := "",
    amount := ⟨0, 1⟩, direction := "C", remittance_info := "" }

/-- First stored rule: name "B", priority 5, assigns category 1. -/
def c4RuleB : AutoRule :=
  { id := 1, name := "B", active := true, priority := 5, applies_to := "banca",
    match_description := none, match_counterpart := none, match_partita_iva := none,
    match_causale_abi := none, match_amount_min := none, match_amount_max := none,
    match_direction := none, action_category_id := some 1, action_contact_id := none,
    action_revenue_stream_id := none, action_description := none, action_auto_create := false,
    action_payment_method := none, action_iva_rate := none, action_notes := none }

/-- Second stored rule: name "A", same priority 5, assigns category 2. -/
def c4RuleA : AutoRule :=
  { id := 2, name := "A", active := true, priority := 5, applies_to := "banca",
    match_description := none, match_counterpart := none, match_partita_iva := none,
    match_causale_abi := none, match_amount_min := none, match_amount_max := none,
    match_direction := none, action_category_id := some 2, action_contact_id := none,
    action_revenue_stream_id := none, action_description := none, action_auto_create := false,
    action_payment_method := none, action_iva_rate := none, action_notes := none }

/-- Counterexample to claim C4 as stated: with two equally-prioritized
matching rules stored in the order B, A, the code (priority-only ordering)
applies rule B while the "ties broken by name" ordering demanded by the
claim would apply rule A — so the claimed tie-break does not hold of the
code. -/
theorem C4_counterexample :
    applyRules [c4RuleB, c4RuleA] c4Data "banca" ≠
      applyRulesSpecOrdered [c4RuleB, c4RuleA] c4Data "banca" ∧
    applyRules [c4RuleB, c4RuleA] c4Data "banca" = some (buildActions c4RuleB) ∧
    applyRulesSpecOrdered [c4RuleB, c4RuleA] c4Data "banca" = some (buildActions c4RuleA) := by
  refine ⟨by decide, by decide, by decide⟩

/-! ### Score decomposition and monotonicity (claims C8, C10) -/

/-- The amount dimension of `_compute_score` as a function of the relative
difference percentage. -/
def amountScoreOfPct (p : Q) : Nat :=
  if Q.ble p (qNorm 2 100) then 50
  else if Q.ble p (qNorm 10 100) then 20
  else 0

/-- The amount dimension of `_compute_score`: skipped entirely (0 points, no
division) unless the candidate amount is positive. -/
def amountScoreComponent (bt : BankTransaction) (tx : Transaction) : Nat :=
  if Q.blt ⟨0, 1⟩ tx.amount then
    amountScoreOfPct (Q.div (Q.abs (Q.sub bt.amount tx.amount)) tx.amount)
  else 0

/-- The counterpart-name dimension of `_compute_score`. -/
def nameScoreComponent (ratio : String → String → Q) (db : DB) (bt : BankTransaction)
    (tx : Transaction) : Nat :=
  if !bt.counterpart_name.data.isEmpty then
    match db.getContact tx with
    | some contact =>
      let similarity := nameSimilarity ratio bt.counterpart_name contact.name
      if Q.blt (qNorm 7 10) similarity then 30
      else if Q.blt (qNorm 4 10) similarity then 15
      else 0
    | none => 0
  else 0

/-- The date dimension of `_compute_score` as a function of the absolute day
distance. -/
def dateScoreOfDays (d : Nat) : Nat :=
  if d ≤ 7 then 20 else if d ≤ 15 then 10 else 0

def dateScoreComponent (bt : BankTransaction) (tx : Transaction) : Nat :=
  dateScoreOfDays (bt.operation_date - tx.date).natAbs

/-- The score of `_compute_score` is the sum of its three dimensions. -/
theorem computeScore_decompose (ratio : String → String → Q) (db : DB)
    (bt : BankTransaction) (tx : Transaction) :
    (computeScore ratio db bt tx).1 =
      amountScoreComponent bt tx + nameScoreComponent ratio db bt tx +
        dateScoreComponent bt tx := by
  simp only [computeScore, amountScoreComponent, amountScoreOfPct, nameScoreComponent,
    dateScoreComponent, dateScoreOfDays]
  repeat' split
  all_goals rfl

/-- Claim C8: the scoring function is monotone in each dimension — the score
decomposes into three components; shrinking the absolute day distance never
decreases the date component; shrinking the relative amount difference never
decreases the amount component. -/
theorem C8_score_monotone :
    (∀ (ratio : String → String → Q) (db : DB) (bt : BankTransaction) (tx : Transaction),
      (computeScore ratio db bt tx).1 =
        amountScoreComponent bt tx + nameScoreComponent ratio db bt tx +
          dateScoreComponent bt tx) ∧
    (∀ d d2 : Nat, d ≤ d2 → dateScoreOfDays d2 ≤ dateScoreOfDays d) ∧
    (∀ p p2 : Q, p.wf → p2.wf → Q.ble p p2 = true →
      amountScoreOfPct p2 ≤ amountScoreOfPct p) := by
  refine ⟨computeScore_decompose, ?_, ?_⟩
  · intro d d2 h
    unfold dateScoreOfDays
    repeat' split
    all_goals omega
  · intro p p2 _ hp2 h
    unfold amountScoreOfPct
    by_cases h2 : Q.ble p2 (qNorm 2 100) = true
    · rw [if_pos h2, if_pos (Q.ble_trans hp2 h h2)]
    · by_cases h10 : Q.ble p2 (qNorm 10 100) = true
      · rw [if_neg h2, if_pos h10]
        have hp10 : Q.ble p (qNorm 10 100) = true := Q.ble_trans hp2 h h10
        by_cases hp2c : Q.ble p (qNorm 2 100) = true
        · rw [if_pos hp2c]
          omega
        · rw [if_neg hp2c, if_pos hp10]
      · rw [if_neg h2, if_neg h10]
        exact Nat.zero_le _

/-- Witness for C8: decreasing the day distance from 9 to 3 does not
decrease the date component, and decreasing the relative amount difference
from 5% to 1% does not decrease the amount component. -/
theorem C8_score_monotone_witness :
    dateScoreOfDays 9 ≤ dateScoreOfDays 3 ∧
      amountScoreOfPct (qNorm 5 100) ≤ amountScoreOfPct (qNorm 1 100) :=
  ⟨C8_score_monotone.2.1 3 9 (by decide),
   C8_score_monotone.2.2 (qNorm 1 100) (qNorm 5 100) (by decide) (by decide) (by decide)⟩

/-- Claim C10: scoring is total even for degenerate candidates — for every
input the exception-aware `_compute_score` returns a value (the division by
the candidate amount is guarded, so no `ZeroDivisionError` is ever raised),
and when the candidate amount is zero or negative the amount dimension is
skipped and contributes exactly 0 points. -/
theorem C10_score_division_safe :
    ∀ (ratio : String → String → Q) (db : DB) (bt : BankTransaction) (tx : Transaction),
      computeScoreE ratio db bt tx = .ok (computeScore ratio db bt tx) ∧
      (Q.ble tx.amount ⟨0, 1⟩ = true →
        amountScoreComponent bt tx = 0 ∧
        (computeScore ratio db bt tx).1 =
          nameScoreComponent ratio db bt tx + dateScoreComponent bt tx) := by
  intro ratio db bt tx
  constructor
  · simp only [computeScoreE, computeScore]
    split
    · rename_i hpos
      have hnz : ¬((tx.amount = qNorm 0 1 || tx.amount = (⟨0, 1⟩ : Q)) = true) := by
        intro hcontra
      -- a zero amount cannot satisfy the strict positivity guard
        have hz : tx.amount = (⟨0, 1⟩ : Q) := by
          rcases Bool.or_eq_true_iff.mp hcontra with h | h
          · simpa [qNorm] using of_decide_eq_true h
          · exact of_decide_eq_true h
        rw [hz] at hpos
        exact absurd hpos (by decide)
      unfold pyDiv
      rw [if_neg hnz, exceptBind_ok]
      rfl
    · rfl
  · intro hle
    have hnpos : ¬(Q.blt ⟨0, 1⟩ tx.amount = true) := by
      simp only [Q.ble, Q.blt] at *
      simp only [decide_eq_true_eq] at *
      omega
    have hcomp : amountScoreComponent bt tx = 0 := by
      unfold amountScoreComponent
      rw [if_neg hnpos]
    refine ⟨hcomp, ?_⟩
    rw [computeScore_decompose, hcomp, Nat.zero_add]

/-- Witness for C10: a candidate with amount 0 is scored without any
division and its amount dimension contributes 0. -/
theorem C10_score_division_safe_witness :
    amountScoreComponent
      { id := 1, operation_date := 0, value_date := none, amount := ⟨100, 1⟩, direction := "C",
        causale_abi := "", causale_description := "", counterpart_name := "",
        counterpart_address := "", remittance_info := "", description := "",
        reference_code := "", dedup_hash := "h", status := "non_riconciliato",
        matched_transaction_id := none, matched_by := none, matched_rule_id := none,
        ignore_reason_id := none }
      { id := 1, type := "entrata", source := "sdi", official := true, amount := ⟨0, 1⟩,
        date := 0, description := "", category_id := none, contact_id := none,
        revenue_stream_id := none, payment_status := "da_pagare", payment_method := none,
        payment_date := none } = 0 :=
  (C10_score_division_safe (fun _ _ => ⟨0, 1⟩) ⟨[], [], [], [], 1⟩ _ _).2 (by decide) |>.1

/-! ### Candidate pool properties (claims C1, C5, C7) -/

/-- Unpacking of the `_get_candidates` filter. -/
theorem getCandidates_spec (db : DB) (bt : BankTransaction) (source : String)
    (tx : Transaction) (h : tx ∈ getCandidates db bt source) :
    tx ∈ db.txs ∧ tx.source = source ∧ tx.type = txTypeFor bt ∧
    bt.operation_date - 30 ≤ tx.date ∧ tx.date ≤ bt.operation_date + 30 ∧
    (source = "sdi" → tx.payment_status = "da_pagare" ∨ tx.payment_status = "parziale") ∧
    ∀ bt2 ∈ db.bankTxs, bt2.id ≠ bt.id → bt2.matched_transaction_id ≠ some tx.id := by
  rw [getCandidates, List.mem_filter] at h
  obtain ⟨hmem, hcond⟩ := h
  simp only [Bool.and_eq_true, beq_iff_eq, decide_eq_true_eq, Bool.not_eq_true,
    List.any_eq_false, Bool.and_eq_false_iff] at hcond
  obtain ⟨⟨⟨⟨⟨hsrc, htype⟩, hd1⟩, hd2⟩, hpay⟩, hexcl⟩ := hcond
  refine ⟨hmem, hsrc, htype, hd1, hd2, ?_, ?_⟩
  · intro hsdi
    rw [if_pos hsdi] at hpay
    simpa using hpay
  · intro bt2 hbt2 hne heq
    have hx : db.bankTxs.any
        (fun b2 => b2.matched_transaction_id == some tx.id && decide (b2.id ≠ bt.id)) = false := by
      simpa using hexcl
    rw [List.any_eq_false] at hx
    have hb2 := hx bt2 hbt2
    simp only [Bool.and_eq_true, beq_iff_eq, decide_eq_true_eq, not_and] at hb2
    exact hb2 heq hne

/-- The best-candidate loop only returns the running best or an element of
the candidate list, carrying that candidate's exact score and reasons. -/
theorem bestLoop_source (ratio : String → String → Q) (db : DB) (bt : BankTransaction) :
    ∀ (cands : List Transaction) (best : Option MatchProp) (bs : Nat) (m : MatchProp),
      bestLoop ratio db bt cands best bs = some m →
      best = some m ∨
        (m.transaction ∈ cands ∧ m.score = (computeScore ratio db bt m.transaction).1 ∧
          m.reasons = (computeScore ratio db bt m.transaction).2) := by
  intro cands
  induction cands with
  | nil => intro best bs m h; exact Or.inl h
  | cons tx rest ih =>
    intro best bs m h
    rw [bestLoop] at h
    split at h
    · rcases ih _ _ m h with h1 | h1
      · obtain hm := Option.some.inj h1
        subst hm
        exact Or.inr ⟨List.mem_cons_self _ _, rfl, rfl⟩
      · exact Or.inr ⟨List.mem_cons_of_mem _ h1.1, h1.2⟩
    · rcases ih _ _ m h with h1 | h1
      · exact Or.inl h1
      · exact Or.inr ⟨List.mem_cons_of_mem _ h1.1, h1.2⟩

/-- The best-candidate loop returns a score at least the running best and at
least every candidate's score. -/
theorem bestLoop_maximal (ratio : String → String → Q) (db : DB) (bt : BankTransaction) :
    ∀ (cands : List Transaction) (best : Option MatchProp) (bs : Nat) (m : MatchProp),
      bestLoop ratio db bt cands best bs = some m →
      (∀ b, best = some b → bs = b.score) →
      bs ≤ m.score ∧ ∀ c ∈ cands, (computeScore ratio db bt c).1 ≤ m.score := by
  intro cands
  induction cands with
  | nil =>
    intro best bs m h hinv
    refine ⟨?_, by simp⟩
    rw [hinv m h]
  | cons tx rest ih =>
    intro best bs m h hinv
    rw [bestLoop] at h
    split at h
    · rename_i hlt
      obtain ⟨h1, h2⟩ := ih _ _ m h (fun b hb => by cases Option.some.inj hb; rfl)
      refine ⟨le_trans (Nat.le_of_lt hlt) h1, ?_⟩
      intro c hc
      rcases List.mem_cons.mp hc with hc1 | hc1
      · subst hc1; exact h1
      · exact h2 c hc1
    · rename_i hge
      obtain ⟨h1, h2⟩ := ih _ _ m h hinv
      refine ⟨h1, ?_⟩
      intro c hc
      rcases List.mem_cons.mp hc with hc1 | hc1
      · subst hc1
        exact le_trans (Nat.le_of_not_lt hge) h1
      · exact h2 c hc1

/-- `_find_best_match` returns a candidate of the requested pool, with its
exact score, and no candidate of the pool scores higher. -/
theorem findBestMatch_spec (ratio : String → String → Q) (db : DB) (bt : BankTransaction)
    (source : String) (m : MatchProp) (h : findBestMatch ratio db bt source = some m) :
    m.transaction ∈ getCandidates db bt source ∧
    m.score = (computeScore ratio db bt m.transaction).1 ∧
    m.reasons = (computeScore ratio db bt m.transaction).2 ∧
    ∀ c ∈ getCandidates db bt source, (computeScore ratio db bt c).1 ≤ m.score := by
  rw [findBestMatch] at h
  rcases bestLoop_source ratio db bt _ _ _ _ h with h1 | h1
  · cases h1
  · obtain ⟨hb, hmax⟩ := bestLoop_maximal ratio db bt _ _ _ _ h (fun b hb => by cases hb)
    exact ⟨h1.1, h1.2.1, h1.2.2, hmax⟩

/-- Claim C1 (amended): an entry linked to any movement is excluded from
every other movement's candidate pool, so the matcher (whose automatic links
always come from `_find_best_match` over that pool) never links it to a
second movement; the manual-confirm route, however, performs no such check
(see the counterexample). -/
theorem C1_pool_excludes_linked :
    (∀ (db : DB) (bt : BankTransaction) (source : String) (tx : Transaction),
      tx ∈ getCandidates db bt source →
      ∀ bt2 ∈ db.bankTxs, bt2.id ≠ bt.id → bt2.matched_transaction_id ≠ some tx.id) ∧
    (∀ (ratio : String → String → Q) (db : DB) (bt : BankTransaction) (source : String)
       (m : MatchProp),
      findBestMatch ratio db bt source = some m →
      ∀ bt2 ∈ db.bankTxs, bt2.id ≠ bt.id →
        bt2.matched_transaction_id ≠ some m.transaction.id) := by
  constructor
  · intro db bt source tx h
    exact (getCandidates_spec db bt source tx h).2.2.2.2.2.2
  · intro ratio db bt source m h
    exact (getCandidates_spec db bt source m.transaction
      (findBestMatch_spec ratio db bt source m h).1).2.2.2.2.2.2

/-- Whether the rule stage of `reconcile_batch` acts on a movement: a rule
matches and carries the auto-create flag. -/
def ruleStageActs (db : DB) (bt : BankTransaction) : Bool :=
  match applyRules db.rules (bankRuleData bt) "banca" with
  | some acts => acts.auto_create
  | none => false

/-- Whether a matching stage's best candidate reaches the automatic
threshold. -/
def bestAtLeast (ratio : String → String → Q) (db : DB) (bt : BankTransaction)
    (source : String) : Bool :=
  match findBestMatch ratio db bt source with
  | some m => AUTO_MATCH_THRESHOLD ≤ m.score
  | none => false

/-- Claim C5 (amended): on a pending movement the rule stage of which
declines, the matcher links the best structured-source (sdi) candidate when
it scores at least 80 — setting `matched_by = "auto"`, status reconciled,
and marking that sdi entry paid as of the movement's operation date; within
the manual/bank stage, the manual pool is tried first: its best candidate is
linked whenever it reaches 80 (regardless of any higher-scoring bank
candidate — see the counterexample), and the bank pool is consulted only
below that. -/
theorem C5_auto_link :
    (∀ (ratio : String → String → Q) (db : DB) (bt : BankTransaction) (m : MatchProp),
      bt.status = "non_riconciliato" →
      ruleStageActs db bt = false →
      findBestMatch ratio db bt "sdi" = some m →
      AUTO_MATCH_THRESHOLD ≤ m.score →
      reconcileOne ratio db bt = (linkTransaction db bt m.transaction "auto", ⟨1, 0, 0⟩) ∧
      m.transaction ∈ getCandidates db bt "sdi" ∧
      m.score = (computeScore ratio db bt m.transaction).1 ∧
      (∀ c ∈ getCandidates db bt "sdi", (computeScore ratio db bt c).1 ≤ m.score) ∧
      (linkTransaction db bt m.transaction "auto").bankTxs =
        db.bankTxs.map (fun b =>
          if b.id = bt.id then
            { b with
              status := "riconciliato"
              matched_transaction_id := some m.transaction.id
              matched_by := some "auto" }
          else b) ∧
      (linkTransaction db bt m.transaction "auto").txs =
        db.txs.map (fun t =>
          if t.id = m.transaction.id then
            { t with payment_status := "pagato", payment_date := some bt.operation_date }
          else t)) ∧
    (∀ (ratio : String → String → Q) (db : DB) (bt : BankTransaction) (m1 : MatchProp),
      bt.status = "non_riconciliato" →
      ruleStageActs db bt = false →
      bestAtLeast ratio db bt "sdi" = false →
      findBestMatch ratio db bt "manuale" = some m1 →
      AUTO_MATCH_THRESHOLD ≤ m1.score →
      reconcileOne ratio db bt = (linkTransaction db bt m1.transaction "auto", ⟨1, 0, 0⟩)) ∧
    (∀ (ratio : String → String → Q) (db : DB) (bt : BankTransaction) (m2 : MatchProp),
      bt.status = "non_riconciliato" →
      ruleStageActs db bt = false →
      bestAtLeast ratio db bt "sdi" = false →
      bestAtLeast ratio db bt "manuale" = false →
      findBestMatch ratio db bt "banca" = some m2 →
      AUTO_MATCH_THRESHOLD ≤ m2.score →
      reconcileOne ratio db bt = (linkTransaction db bt m2.transaction "auto", ⟨1, 0, 0⟩)) := by
  have hrec : ∀ (ratio : String → String → Q) (db : DB) (bt : BankTransaction),
      bt.status = "non_riconciliato" → ruleStageActs db bt = false →
      reconcileOne ratio db bt = reconcileStages ratio db bt := by
    intro ratio db bt hstat hrule
    unfold reconcileOne
    rw [hstat, if_neg (by simp)]
    unfold ruleStageActs at hrule
    cases happ : applyRules db.rules (bankRuleData bt) "banca" with
    | none => rfl
    | some acts =>
      rw [happ] at hrule
      have hac : acts.auto_create = false := hrule
      simp [hac]
  refine ⟨?_, ?_, ?_⟩
  · intro ratio db bt m hstat hrule hsdi hge
    have hspec := findBestMatch_spec ratio db bt "sdi" m hsdi
    have hcand := getCandidates_spec db bt "sdi" m.transaction hspec.1
    have hlink : reconcileOne ratio db bt =
        (linkTransaction db bt m.transaction "auto", ⟨1, 0, 0⟩) := by
      rw [hrec ratio db bt hstat hrule]
      unfold reconcileStages
      simp only [hsdi]
      rw [if_pos hge]
    have hcond : (m.transaction.source == "sdi" &&
        (m.transaction.payment_status == "da_pagare" ||
          m.transaction.payment_status == "parziale")) = true := by
      rcases hcand.2.2.2.2.2.1 rfl with h2 | h2 <;> simp [hcand.2.1, h2]
    refine ⟨hlink, hspec.1, hspec.2.1, hspec.2.2.2, ?_, ?_⟩
    · unfold linkTransaction
      split <;> rfl
    · unfold linkTransaction
      rw [if_pos hcond]
      rfl
  · intro ratio db bt m1 hstat hrule hsdi hman hge
    rw [hrec ratio db bt hstat hrule]
    unfold reconcileStages
    unfold bestAtLeast at hsdi
    have hstage3 : reconcileStage3 ratio db bt =
        (linkTransaction db bt m1.transaction "auto", ⟨1, 0, 0⟩) := by
      unfold reconcileStage3
      simp only [hman]
      rw [if_neg (Nat.not_lt.mpr hge)]
      simp only [if_pos hge]
    cases hs : findBestMatch ratio db bt "sdi" with
    | none =>
      simp only [hs]
      exact hstage3
    | some ms =>
      rw [hs] at hsdi
      simp only [decide_eq_false_iff_not, Nat.not_le] at hsdi
      simp only [hs]
      rw [if_neg (Nat.not_le.mpr hsdi)]
      exact hstage3
  · intro ratio db bt m2 hstat hrule hsdi hman hban hge
    rw [hrec ratio db bt hstat hrule]
    unfold reconcileStages
    unfold bestAtLeast at hsdi hman
    have hstage3 : reconcileStage3 ratio db bt =
        (linkTransaction db bt m2.transaction "auto", ⟨1, 0, 0⟩) := by
      unfold reconcileStage3
      cases hm : findBestMatch ratio db bt "manuale" with
      | none =>
        simp only [hm, hban]
        simp only [if_pos hge]
      | some mm =>
        rw [hm] at hman
        simp only [decide_eq_false_iff_not, Nat.not_le] at hman
        simp only [hm]
        rw [if_pos hman]
        simp only [hban]
        simp only [if_pos hge]
    cases hs : findBestMatch ratio db bt "sdi" with
    | none =>
      simp only [hs]
      exact hstage3
    | some ms =>
      rw [hs] at hsdi
      simp only [decide_eq_false_iff_not, Nat.not_le] at hsdi
      simp only [hs]
      rw [if_neg (Nat.not_le.mpr hsdi)]
      exact hstage3

/-! ### Concrete reconciliation scenarios (fixtures for the claims below) -/

/-- Degenerate stand-in for `SequenceMatcher.ratio` (never reached in the
scenarios: the containment rule fires first). -/
def ratioZero : String → String → Q := fun _ _ => ⟨0, 1⟩

/-- A pending credit movement fixture. -/
def mkBt (i : Nat) (date : Int) (amount : Q) (cname : String) : BankTransaction :=
  { id := i, operation_date := date, value_date := none, amount := amount, direction := "C",
    causale_abi := "", causale_description := "", counterpart_name := cname,
    counterpart_address := "", remittance_info := "", description := "", reference_code := "",
    dedup_hash := "", status := "non_riconciliato", matched_transaction_id := none,
    matched_by := none, matched_rule_id := none, ignore_reason_id := none }

/-- An income ledger-entry fixture. -/
def mkTx (i : Nat) (source : String) (amount : Q) (date : Int) (cid : Option Nat)
    (pstatus : String) : Transaction :=
  { id := i, type := "entrata", source := source, official := true, amount := amount,
    date := date, description := "", category_id := none, contact_id := cid,
    revenue_stream_id := none, payment_status := pstatus, payment_method := none,
    payment_date := none }

def c1M1 : BankTransaction :=
  { mkBt 1 0 ⟨100, 1⟩ "" with
    status := "riconciliato", matched_transaction_id := some 1, matched_by := some "manuale" }

def c1M2 : BankTransaction := mkBt 2 0 ⟨100, 1⟩ ""

def c1Tx : Transaction := mkTx 1 "manuale" ⟨100, 1⟩ 0 none "da_pagare"

def c1Db : DB := { bankTxs := [c1M1, c1M2], txs := [c1Tx], rules := [], contacts := [], nextTxId := 2 }

/-- Counterexample to claim C1 as stated: ledger entry 1 is already linked
to movement 1, yet the manual-confirm route accepts it for movement 2 as
well — afterwards the entry is the match target of both movements at once,
so a linked entry is not excluded from the manual-confirm operation. -/
theorem C1_counterexample :
    ((riconcilia c1Db 2 1).bankTxs.map (fun b => (b.id, b.matched_transaction_id))) =
      [(1, some 1), (2, some 1)] := by decide

def c1wM1 : BankTransaction := mkBt 1 0 ⟨50, 1⟩ ""

def c1wM2 : BankTransaction :=
  { mkBt 2 0 ⟨50, 1⟩ "" with
    status := "riconciliato", matched_transaction_id := some 2, matched_by := some "manuale" }

def c1wTx : Transaction := mkTx 1 "manuale" ⟨50, 1⟩ 0 none "da_pagare"

def c1wDb : DB :=
  { bankTxs := [c1wM1, c1wM2], txs := [c1wTx], rules := [], contacts := [], nextTxId := 3 }

/-- Witness for the amended C1: a concrete candidate of movement 1's pool is
not the link target of the other movement. -/
theorem C1_pool_excludes_linked_witness :
    c1wM2.matched_transaction_id ≠ some c1wTx.id :=
  C1_pool_excludes_linked.1 c1wDb c1wM1 "manuale" c1wTx (by decide) c1wM2 (by decide) (by decide)

def c5Bt : BankTransaction := mkBt 1 0 ⟨100, 1⟩ "ACME"

def c5TxSdi : Transaction := mkTx 1 "sdi" ⟨100, 1⟩ 0 (some 1) "da_pagare"

def c5Db : DB :=
  { bankTxs := [c5Bt], txs := [c5TxSdi], rules := [], contacts := [⟨1, "ACME SRL"⟩], nextTxId := 2 }

/-- Witness for the amended C5: a pending movement whose best sdi candidate
scores 100 is linked automatically. -/
theorem C5_auto_link_witness :
    reconcileOne ratioZero c5Db c5Bt = (linkTransaction c5Db c5Bt c5TxSdi "auto", ⟨1, 0, 0⟩) :=
  (C5_auto_link.1 ratioZero c5Db c5Bt
    ⟨c5TxSdi, 100, ["Importo identico", "Nome controparte simile (90%)", "Data vicina (0gg)"]⟩
    rfl (by decide) (by decide) (by decide)).1

def c5xBt : BankTransaction := mkBt 1 0 ⟨100, 1⟩ "ACME"

def c5xTxA : Transaction := mkTx 1 "manuale" ⟨100, 1⟩ (-10) (some 1) "da_pagare"

def c5xTxB : Transaction := mkTx 2 "banca" ⟨100, 1⟩ 0 (some 1) "da_pagare"

def c5xDb : DB :=
  { bankTxs := [c5xBt], txs := [c5xTxA, c5xTxB], rules := [], contacts := [⟨1, "ACME SRL"⟩],
    nextTxId := 3 }

/-- Counterexample to claim C5 as stated: within the manual/bank matching
stage the bank-source candidate scores 100 (the stage's best) and exceeds
the threshold, yet the matcher links the manual-source candidate scoring
90 — the best candidate of the stage is not the one linked. -/
theorem C5_counterexample :
    ((reconcileOne ratioZero c5xDb c5xBt).1.bankTxs.map
      (fun b => b.matched_transaction_id)) = [some 1] ∧
    (computeScore ratioZero c5xDb c5xBt c5xTxB).1 = 100 ∧
    (computeScore ratioZero c5xDb c5xBt c5xTxA).1 = 90 ∧
    c5xTxB ∈ getCandidates c5xDb c5xBt "banca" ∧
    c5xTxA.id = 1 ∧ c5xTxB.id = 2 := by
  refine ⟨by decide, by decide, by decide, by decide, rfl, rfl⟩

/-! ### Pending movements and proposals (claim C7) -/

theorem proposalsFor_mem (ratio : String → String → Q) (db : DB) (bt : BankTransaction)
    (source : String) (p : MatchProp) (h : p ∈ proposalsFor ratio db bt source) :
    20 < p.score ∧ p.transaction ∈ getCandidates db bt source ∧
    p.score = (computeScore ratio db bt p.transaction).1 ∧
    p.reasons = (computeScore ratio db bt p.transaction).2 := by
  simp only [proposalsFor, List.mem_filterMap] at h
  obtain ⟨tx, htx, hf⟩ := h
  by_cases h20 : 20 < (computeScore ratio db bt tx).1
  · rw [if_pos h20] at hf
    cases hf
    exact ⟨h20, htx, rfl, rfl⟩
  · rw [if_neg h20] at hf
    cases hf

/-- Claim C7: when no matching stage acts, the movement stays pending (the
session is untouched and the movement is counted as pending); and the
proposal operation always returns at most five candidates, each scoring
strictly more than 20, drawn from the same candidate pools the matcher uses,
sorted by score descending, each carrying the exact reasons computed with
its score. -/
theorem C7_pending_and_proposals :
    (∀ (ratio : String → String → Q) (db : DB) (bt : BankTransaction),
      bt.status = "non_riconciliato" →
      ruleStageActs db bt = false →
      bestAtLeast ratio db bt "sdi" = false →
      bestAtLeast ratio db bt "manuale" = false →
      bestAtLeast ratio db bt "banca" = false →
      reconcileOne ratio db bt = (db, ⟨0, 1, 0⟩)) ∧
    (∀ (ratio : String → String → Q) (db : DB) (bt : BankTransaction),
      (getMatchProposals ratio db bt).length ≤ 5 ∧
      (getMatchProposals ratio db bt).Pairwise (fun a b => b.score ≤ a.score) ∧
      ∀ p ∈ getMatchProposals ratio db bt,
        20 < p.score ∧
        (p.transaction ∈ getCandidates db bt "sdi" ∨
          p.transaction ∈ getCandidates db bt "manuale" ∨
          p.transaction ∈ getCandidates db bt "banca") ∧
        p.score = (computeScore ratio db bt p.transaction).1 ∧
        p.reasons = (computeScore ratio db bt p.transaction).2) := by
  constructor
  · intro ratio db bt hstat hrule hsdi hman hban
    have hrec : reconcileOne ratio db bt = reconcileStages ratio db bt := by
      unfold reconcileOne
      rw [hstat, if_neg (by simp)]
      unfold ruleStageActs at hrule
      cases happ : applyRules db.rules (bankRuleData bt) "banca" with
      | none => rfl
      | some acts =>
        rw [happ] at hrule
        have hac : acts.auto_create = false := hrule
        simp [hac]
    rw [hrec]
    unfold reconcileStages
    unfold bestAtLeast at hsdi hman hban
    have hstage3 : reconcileStage3 ratio db bt = (db, ⟨0, 1, 0⟩) := by
      unfold reconcileStage3
      cases hm : findBestMatch ratio db bt "manuale" with
      | none =>
        cases hb : findBestMatch ratio db bt "banca" with
        | none => simp [hm, hb]
        | some mb =>
          rw [hb] at hban
          simp only [decide_eq_false_iff_not, Nat.not_le] at hban
          simp only [hm, hb]
          rw [if_neg (Nat.not_le.mpr hban)]
      | some mm =>
        rw [hm] at hman
        simp only [decide_eq_false_iff_not, Nat.not_le] at hman
        simp only [hm]
        rw [if_pos hman]
        cases hb : findBestMatch ratio db bt "banca" with
        | none => simp [hb]
        | some mb =>
          rw [hb] at hban
          simp only [decide_eq_false_iff_not, Nat.not_le] at hban
          simp only [hb]
          rw [if_neg (Nat.not_le.mpr hban)]
    cases hs : findBestMatch ratio db bt "sdi" with
    | none =>
      simp only [hs]
      exact hstage3
    | some ms =>
      rw [hs] at hsdi
      simp only [decide_eq_false_iff_not, Nat.not_le] at hsdi
      simp only [hs]
      rw [if_neg (Nat.not_le.mpr hsdi)]
      exact hstage3
  · intro ratio db bt
    refine ⟨?_, ?_, ?_⟩
    · rw [getMatchProposals, List.length_take]
      exact inf_le_left
    · have hp := pairwise_stableSortBy scoreDesc
        (fun a b => by simp [scoreDesc]; omega)
        (fun a b c h1 h2 => by simp [scoreDesc] at *; omega)
        (proposalsFor ratio db bt "sdi" ++ proposalsFor ratio db bt "manuale" ++
          proposalsFor ratio db bt "banca")
      have hsub := List.Pairwise.sublist (List.take_sublist 5 _) hp
      exact hsub.imp (fun h => by simpa [scoreDesc] using h)
    · intro p hp
      have hmem : p ∈ stableSortBy scoreDesc
          (proposalsFor ratio db bt "sdi" ++ proposalsFor ratio db bt "manuale" ++
            proposalsFor ratio db bt "banca") := List.take_subset 5 _ hp
      rw [mem_stableSortBy] at hmem
      rcases List.mem_append.mp hmem with hmem2 | hban
      · rcases List.mem_append.mp hmem2 with hsdi | hman
        · obtain ⟨h20, hc, hs, hr⟩ := proposalsFor_mem ratio db bt "sdi" p hsdi
          exact ⟨h20, Or.inl hc, hs, hr⟩
        · obtain ⟨h20, hc, hs, hr⟩ := proposalsFor_mem ratio db bt "manuale" p hman
          exact ⟨h20, Or.inr (Or.inl hc), hs, hr⟩
      · obtain ⟨h20, hc, hs, hr⟩ := proposalsFor_mem ratio db bt "banca" p hban
        exact ⟨h20, Or.inr (Or.inr hc), hs, hr⟩

def c7Bt : BankTransaction := mkBt 1 0 ⟨100, 1⟩ ""

def c7Tx : Transaction := mkTx 1 "sdi" ⟨100, 1⟩ (-20) none "da_pagare"

def c7Db : DB := { bankTxs := [c7Bt], txs := [c7Tx], rules := [], contacts := [], nextTxId := 2 }

/-- Witness for C7: a pending movement whose only candidate scores 50 stays
pending, and its proposal list has at most five entries. -/
theorem C7_pending_and_proposals_witness :
    reconcileOne ratioZero c7Db c7Bt = (c7Db, ⟨0, 1, 0⟩) ∧
      (getMatchProposals ratioZero c7Db c7Bt).length ≤ 5 :=
  ⟨(C7_pending_and_proposals.1 ratioZero c7Db c7Bt rfl (by decide) (by decide) (by decide)
      (by decide)),
   (C7_pending_and_proposals.2 ratioZero c7Db c7Bt).1⟩

/-! ### Restricted rule re-application (claim C6) -/

theorem mem_update_of_ne (l : List BankTransaction) (m : BankTransaction) (i : Nat)
    (f : BankTransaction → BankTransaction) (hm : m ∈ l) (hne : m.id ≠ i) :
    m ∈ l.map (fun b => if b.id = i then f b else b) := by
  have h2 := List.mem_map_of_mem (fun b => if b.id = i then f b else b) hm
  simpa [if_neg hne] using h2

theorem map_id_update (l : List BankTransaction) (i : Nat)
    (f : BankTransaction → BankTransaction) (hf : ∀ b, (f b).id = b.id) :
    ((l.map (fun b => if b.id = i then f b else b)).map (fun b => b.id)) =
      l.map (fun b => b.id) := by
  rw [List.map_map]
  apply List.map_congr_left
  intro b _
  by_cases h : b.id = i
  · simp [Function.comp, h, hf]
  · simp [Function.comp, h]

/-- The session effect of `create_transaction_from_rule` on the movements
table: only the focused movement changes, and only its link/status fields. -/
theorem createTransactionFromRule_bankTxs (db : DB) (bt : BankTransaction) (acts : Actions) :
    (createTransactionFromRule db bt acts).bankTxs =
      db.bankTxs.map (fun b =>
        if b.id = bt.id then
          { b with
            matched_transaction_id := some db.nextTxId
            status := "riconciliato"
            matched_by := some "regola"
            matched_rule_id := some acts.rule_id }
        else b) := by
  unfold createTransactionFromRule createTransactionFromBank DB.updateBank
  simp only [List.map_map]
  apply List.map_congr_left
  intro b _
  by_cases h : b.id = bt.id
  · simp [Function.comp, h]
  · simp [Function.comp, h]

/-- The per-branch session effect of the `regole_riapplica` loop body on the
movements table: unchanged, or an id-preserving update of the focused
movement only. -/
theorem riapplicaOne_bankTxs (db : DB) (rids : List Nat) (bt0 : BankTransaction) :
    (riapplicaOne db rids bt0).1.bankTxs = db.bankTxs ∨
    ∃ f : BankTransaction → BankTransaction, (∀ b, (f b).id = b.id) ∧
      (riapplicaOne db rids bt0).1.bankTxs =
        db.bankTxs.map (fun b => if b.id = bt0.id then f b else b) := by
  unfold riapplicaOne
  split
  · exact Or.inl rfl
  · cases happ : applySpecificRules db.rules (bankRuleData bt0) "banca" rids with
    | none => exact Or.inl rfl
    | some acts =>
      simp only
      split
      · refine Or.inr ⟨fun b =>
          { b with
            matched_transaction_id := some db.nextTxId
            status := "riconciliato"
            matched_by := some "regola"
            matched_rule_id := some acts.rule_id }, fun b => rfl, ?_⟩
        exact createTransactionFromRule_bankTxs db bt0 acts
      · exact Or.inr ⟨fun b => { b with matched_rule_id := some acts.rule_id },
          fun b => rfl, rfl⟩

theorem riapplicaStep_preserves (rids : List Nat) (m : BankTransaction)
    (hm : m.status = "riconciliato") (hlink : m.matched_transaction_id.isSome = true)
    (acc : DB × Nat × Nat) (i : Nat)
    (h1 : m ∈ acc.1.bankTxs) (h2 : (acc.1.bankTxs.map (fun b => b.id)).Nodup) :
    m ∈ (riapplicaStep rids acc i).1.bankTxs ∧
      ((riapplicaStep rids acc i).1.bankTxs.map (fun b => b.id)).Nodup := by
  unfold riapplicaStep
  cases hf : acc.1.bankTxs.find? (fun b => b.id == i) with
  | none => exact ⟨h1, h2⟩
  | some bt0 =>
    have hbt0mem : bt0 ∈ acc.1.bankTxs := List.mem_of_find?_eq_some hf
    have hbt0id : bt0.id = i := by
      have := List.find?_some hf
      simpa using this
    simp only
    by_cases hmi : m.id = i
    · have heq : bt0 = m :=
        List.inj_on_of_nodup_map h2 hbt0mem h1 (by rw [hbt0id, hmi])
      have hskip : riapplicaOne acc.1 rids bt0 = (acc.1, 0, 0) := by
        unfold riapplicaOne
        rw [if_pos (by rw [heq]; simp [hm, hlink])]
      rw [hskip]
      exact ⟨h1, h2⟩
    · rcases riapplicaOne_bankTxs acc.1 rids bt0 with hsame | ⟨f, hfid, hupd⟩
      · constructor
        · show m ∈ (riapplicaOne acc.1 rids bt0).1.bankTxs
          rw [hsame]; exact h1
        · show ((riapplicaOne acc.1 rids bt0).1.bankTxs.map (fun b => b.id)).Nodup
          rw [hsame]; exact h2
      · constructor
        · show m ∈ (riapplicaOne acc.1 rids bt0).1.bankTxs
          rw [hupd]
          exact mem_update_of_ne _ m bt0.id f h1 (by rw [hbt0id]; exact hmi)
        · show ((riapplicaOne acc.1 rids bt0).1.bankTxs.map (fun b => b.id)).Nodup
          rw [hupd, map_id_update _ _ _ hfid]
          exact h2

theorem riapplicaFold_preserves (rids : List Nat) (m : BankTransaction)
    (hm : m.status = "riconciliato") (hlink : m.matched_transaction_id.isSome = true) :
    ∀ (ids : List Nat) (acc : DB × Nat × Nat),
      m ∈ acc.1.bankTxs → (acc.1.bankTxs.map (fun b => b.id)).Nodup →
      m ∈ (ids.foldl (riapplicaStep rids) acc).1.bankTxs := by
  intro ids
  induction ids with
  | nil => intro acc h1 _; exact h1
  | cons i rest ih =>
    intro acc h1 h2
    simp only [List.foldl_cons]
    have hstep := riapplicaStep_preserves rids m hm hlink acc i h1 h2
    exact ih _ hstep.1 hstep.2

/-- Claim C6: the restricted re-apply operation, over a selected subset of
rule ids and a scope filter — for a currently-unreconciled movement whose
first matching selected rule carries the auto-create flag it synthesizes the
ledger entry (movement linked, `matched_by = "regola"`); for other matching
movements it records the classifying rule id; and a movement already
reconciled to a linked ledger entry passes through the whole loop untouched
(its link is never modified). -/
theorem C6_riapplica_restricted :
    (∀ (db : DB) (rids : List Nat) (bt : BankTransaction) (acts : Actions),
      bt.status ≠ "riconciliato" →
      applySpecificRules db.rules (bankRuleData bt) "banca" rids = some acts →
      acts.auto_create = true →
      riapplicaOne db rids bt = (createTransactionFromRule db bt acts, 1, 0) ∧
      ∃ newTx : Transaction,
        (createTransactionFromRule db bt acts).txs = db.txs ++ [newTx] ∧
        newTx.id = db.nextTxId ∧ newTx.amount = bt.amount ∧
        newTx.date = bt.operation_date ∧ newTx.source = "banca" ∧
        newTx.payment_status = "pagato" ∧
        (createTransactionFromRule db bt acts).bankTxs =
          db.bankTxs.map (fun b =>
            if b.id = bt.id then
              { b with
                matched_transaction_id := some db.nextTxId
                status := "riconciliato"
                matched_by := some "regola"
                matched_rule_id := some acts.rule_id }
            else b)) ∧
    (∀ (db : DB) (rids : List Nat) (bt : BankTransaction) (acts : Actions),
      ¬(bt.status = "riconciliato" ∧ bt.matched_transaction_id.isSome = true) →
      applySpecificRules db.rules (bankRuleData bt) "banca" rids = some acts →
      ¬(acts.auto_create = true ∧ bt.status ≠ "riconciliato") →
      riapplicaOne db rids bt =
        (db.updateBank bt.id (fun b => { b with matched_rule_id := some acts.rule_id }), 0, 1)) ∧
    (∀ (db : DB) (rids : List Nat) (scope : String) (m : BankTransaction),
      (db.bankTxs.map (fun b => b.id)).Nodup →
      m ∈ db.bankTxs →
      m.status = "riconciliato" →
      m.matched_transaction_id.isSome = true →
      m ∈ (regoleRiapplica db rids scope).1.bankTxs) := by
  refine ⟨?_, ?_, ?_⟩
  · intro db rids bt acts hstat happ hauto
    have hb : (bt.status == "riconciliato") = false := beq_eq_false_iff_ne.mpr hstat
    have hone : riapplicaOne db rids bt = (createTransactionFromRule db bt acts, 1, 0) := by
      unfold riapplicaOne
      rw [if_neg (by simp [hb])]
      simp only [happ]
      rw [if_pos (by simp [hauto, hstat])]
    refine ⟨hone, ⟨_, rfl, rfl, rfl, rfl, rfl, rfl, ?_⟩⟩
    exact createTransactionFromRule_bankTxs db bt acts
  · intro db rids bt acts hskip happ hnot
    have hb1 : (bt.status == "riconciliato" && bt.matched_transaction_id.isSome) = false := by
      by_cases h : bt.status = "riconciliato"
      · cases hi : bt.matched_transaction_id.isSome with
        | true => exact absurd ⟨h, hi⟩ hskip
        | false => simp [hi]
      · simp [beq_eq_false_iff_ne.mpr h]
    unfold riapplicaOne
    rw [if_neg (by simp [hb1])]
    simp only [happ]
    rw [if_neg (by
      intro hcontra
      simp only [Bool.and_eq_true, decide_eq_true_eq] at hcontra
      exact hnot hcontra)]
  · intro db rids scope m hnd hmem hstat hlink
    unfold regoleRiapplica
    exact riapplicaFold_preserves rids m hstat hlink _ (db, 0, 0) hmem hnd

/-- An always-matching selected rule with the auto-create flag. -/
def c6Rule : AutoRule :=
  { id := 1, name := "R", active := true, priority := 0, applies_to := "banca",
    match_description := none, match_counterpart := none, match_partita_iva := none,
    match_causale_abi := none, match_amount_min := none, match_amount_max := none,
    match_direction := none, action_category_id := none, action_contact_id := none,
    action_revenue_stream_id := none, action_description := none, action_auto_create := true,
    action_payment_method := none, action_iva_rate := none, action_notes := none }

def c6W1 : BankTransaction := mkBt 1 0 ⟨150, 1⟩ "ACME"

def c6W2 : BankTransaction :=
  { mkBt 2 0 ⟨70, 1⟩ "" with
    status := "riconciliato", matched_transaction_id := some 5, matched_by := some "manuale" }

def c6Db : DB := { bankTxs := [c6W1, c6W2], txs := [], rules := [c6Rule], contacts := [], nextTxId := 10 }

/-- Witness for C6: re-applying the auto-create rule creates the entry for
the pending movement, while the already-reconciled linked movement survives
the whole operation untouched. -/
theorem C6_riapplica_restricted_witness :
    riapplicaOne c6Db [1] c6W1 = (createTransactionFromRule c6Db c6W1 (buildActions c6Rule), 1, 0) ∧
      c6W2 ∈ (regoleRiapplica c6Db [1] "tutti").1.bankTxs :=
  ⟨(C6_riapplica_restricted.1 c6Db [1] c6W1 (buildActions c6Rule) (by decide) (by decide)
      (by decide)).1,
   C6_riapplica_restricted.2.2 c6Db [1] "tutti" c6W2 (by decide) (by decide) rfl rfl⟩
